import Mathlib

/-!
Verification of the row-assignment layout engine of the ila-timeline
repository (src/src/DiagramPositioner.js, plus the bundled positioner
variant in the distributed build).

The JavaScript code is shallowly embedded: the mutable positioner state
(`this._entries`, `this._grid`, `this._order`) becomes an explicit `St`
record threaded through the functions; JS exceptions become an explicit
`Err` sum; unbounded recursion (cluster chasing, cascading shifts,
become chains) is driven by an explicit fuel parameter where `none`
marks exhaustion (the JS functions recurse without any guard).
Object references into the entries array are modelled as list indices;
JS truthiness tests on numeric fields (where `0` counts as unset) are
modelled by explicit `jsTruthy` helpers.
-/

namespace ILA

/-- JS exceptions thrown by the positioner, as an explicit error sum.
Each constructor corresponds to one family of `throw new Error(...)`
or implicit TypeError sites in the source. -/
inductive Err where
  /-- `Invalid row checked` in `_checkGridRow` (grid[y] undefined). -/
  | invalidRow
  /-- `Invalid range checked` in `_checkGridRow` (x out of bounds). -/
  | invalidRange
  /-- `Attempt to mark non-existent grid row` in `_markGridRow`. -/
  | markRow
  /-- `X coords out of range` in `_markGridRow`. -/
  | xCoords
  /-- `Tried to position ... without a calculated group grid`. -/
  | noGroupGrid
  /-- `Cannot force position without a row` in `_forceCluster`. -/
  | forceNoRow
  /-- An implicit JS TypeError (property access on undefined). -/
  | typeError
  /-- `{...entries.find(...)}` over a missing become target: in JS this
  yields an empty object whose undefined fields poison the entry and
  later throw in `_yearToGrid`; modelled as an immediate error. -/
  | badBecomeTarget
  deriving DecidableEq, Repr

/-- Result of a fueled computation: `none` is fuel exhaustion (the JS
code recurses unboundedly there), `some (.error e)` a thrown exception,
`some (.ok a)` normal completion. -/
abbrev Res (α : Type) := Option (Except Err α)

instance {ε α : Type} [DecidableEq ε] [DecidableEq α] : DecidableEq (Except ε α) := fun x y =>
  match x, y with
  | Except.error a, Except.error b =>
    if h : a = b then Decidable.isTrue (h ▸ rfl)
    else Decidable.isFalse (fun hc => h (Except.error.inj hc))
  | Except.ok a, Except.ok b =>
    if h : a = b then Decidable.isTrue (h ▸ rfl)
    else Decidable.isFalse (fun hc => h (Except.ok.inj hc))
  | Except.error _, Except.ok _ => Decidable.isFalse (fun hc => Except.noConfusion hc)
  | Except.ok _, Except.error _ => Decidable.isFalse (fun hc => Except.noConfusion hc)

def okR {α : Type} (a : α) : Res α := some (Except.ok a)

def errR {α : Type} (e : Err) : Res α := some (Except.error e)

def divR {α : Type} : Res α := none

def bindR {α β : Type} (x : Res α) (f : α → Res β) : Res β :=
  match x with
  | none => none
  | some (Except.error e) => some (Except.error e)
  | some (Except.ok a) => f a

/-- Lift a non-recursive (always terminating) computation into `Res`. -/
def liftE {α : Type} (x : Except Err α) : Res α := some x

/-- Fold a fueled step over a list, propagating divergence and errors. -/
def foldR {γ σ : Type} (step : σ → γ → Res σ) : σ → List γ → Res σ
  | s, [] => okR s
  | s, x :: xs => bindR (step s x) (fun s2 => foldR step s2 xs)

/-- Fold an exception-throwing step over a list. -/
def foldE {γ σ : Type} (step : σ → γ → Except Err σ) : σ → List γ → Except Err σ
  | s, [] => Except.ok s
  | s, x :: xs => match step s x with
    | Except.error e => Except.error e
    | Except.ok s2 => foldE step s2 xs

/-- JS truthiness of an optional numeric field: `undefined` and `0` are
falsy.  The positioner tests row values with bare `if (entry.row)`. -/
def jsTruthy (x : Option Int) : Bool :=
  match x with
  | none => false
  | some n => n != 0

/-- JS truthiness of an optional string field (ids are non-empty, so a
present value is truthy). -/
def jsTruthyS (x : Option String) : Bool := x.isSome

/-- Diagram configuration held by the positioner: the year axis bounds
set in the constructor. -/
structure Cfg where
  yearStart : Int
  yearEnd : Int
  deriving DecidableEq, Repr

/-- `this._xLength = yearEnd - yearStart + 1` from the constructor. -/
def Cfg.xLength (cfg : Cfg) : Int := cfg.yearEnd - cfg.yearStart + 1

/-- `_yearToGrid`: convert a year to an X offset on the grid.  Inputs
are integers in this model, so the `isNaN` guard of the source cannot
fire. -/
def yearToGrid (cfg : Cfg) (year : Int) : Int := year - cfg.yearStart

/-- A `DiagramGrid`: a row-major boolean occupancy matrix. -/
abbrev Grid := List (List Bool)

/-- JS read `grid[y]` with an integer index: negative or out-of-range
indices give `undefined`. -/
def gridGet (grid : Grid) (y : Int) : Option (List Bool) :=
  if y < 0 then none else grid.get? y.toNat

/-- Replace row `y` of the grid (in-place mutation in the source). -/
def gridSet (grid : Grid) (y : Int) (row : List Bool) : Grid :=
  if y < 0 then grid else grid.set y.toNat row

/-- JS write `row[i] = v`: writes outside `0 ≤ i < row.length` do not
change any cell that the positioner ever reads back (reads go through
`slice`/`every` over array elements), so they are dropped. -/
def setCell (row : List Bool) (i : Int) (v : Bool) : List Bool :=
  if 0 ≤ i ∧ i.toNat < row.length then row.set i.toNat v else row

/-- The `while (n < (x2 - x1))` marking loop of `_markGridRow`: set
cells `x1, x1+1, ..., x1+n-1`. -/
def setCells (v : Bool) : List Bool → Int → Nat → List Bool
  | row, _, 0 => row
  | row, x, n + 1 => setCells v (setCell row x v) (x + 1) n

/-- A fresh all-free grid row of length `_xLength`. -/
def newRow (cfg : Cfg) : List Bool := List.replicate cfg.xLength.toNat false

/-- `_addGridRow`: push an all-free row. -/
def addGridRow (cfg : Cfg) (grid : Grid) : Grid := grid ++ [newRow cfg]

/-- Append `n` fresh rows (used to model the bounded `while` loops that
repeatedly call `_addGridRow` until a size condition holds). -/
def addGridRows (cfg : Cfg) (grid : Grid) : Nat → Grid
  | 0 => grid
  | n + 1 => addGridRows cfg (addGridRow cfg grid) n

/-- `_markGridRow(y, x1, x2, state, grid)`: set `[x1, x2)` to `state`,
plus the one-cell buffer `x1-1` (if `x1 > 0`) and `x2` (if inside the
row).  Bounds for the main range are checked against `grid[0].length`,
the buffer against `grid[y].length`, exactly as in the source. -/
def markGridRow (y x1 x2 : Int) (state : Bool) (grid : Grid) : Except Err Grid :=
  match gridGet grid y with
  | none => Except.error Err.markRow
  | some row =>
    let len0 : Int := (grid.headD []).length
    if x1 > len0 - 1 ∨ x2 > len0 - 1 then Except.error Err.xCoords
    else
      let row := setCells state row x1 (x2 - x1).toNat
      let row := if x1 > 0 then setCell row (x1 - 1) state else row
      let row := if x2 < (row.length : Int) then setCell row x2 state else row
      Except.ok (gridSet grid y row)

/-- `_blockGridRow`. -/
def blockGridRow (y x1 x2 : Int) (grid : Grid) : Except Err Grid :=
  markGridRow y x1 x2 true grid

/-- `_freeGridRow`. -/
def freeGridRow (y x1 x2 : Int) (grid : Grid) : Except Err Grid :=
  markGridRow y x1 x2 false grid

/-- `_checkGridRow(y, x1, x2, grid)`: is row `y` free on `[x1, x2)`?
`x1 == x2` is widened to `x2 = x1 + 1` (zero-length spans still occupy
one unit); an undefined row or an out-of-range column throws. -/
def checkGridRow (y x1 x2 : Int) (grid : Grid) : Except Err Bool :=
  let x2 := if x1 = x2 then x1 + 1 else x2
  match gridGet grid y with
  | none => Except.error Err.invalidRow
  | some row =>
    if x2 > (row.length : Int) - 1 ∨ x1 < 0 then Except.error Err.invalidRange
    else Except.ok (((row.drop x1.toNat).take (x2 - x1).toNat).all (fun e => !e))

/-- The `for (let i = y1; i <= y2; i++)` scan of `_checkGridRange`,
running for `n` iterations starting at row `i`. -/
def checkGridRangeGo (x1 x2 : Int) (grid : Grid) : Int → Nat → Except Err (Option Int)
  | _, 0 => Except.ok none
  | i, n + 1 =>
    match checkGridRow i x1 x2 grid with
    | Except.error e => Except.error e
    | Except.ok true => Except.ok (some i)
    | Except.ok false => checkGridRangeGo x1 x2 grid (i + 1) n

/-- `_checkGridRange(x1, x2, y1, y2, grid)`: first row in `[y1, y2]`
free on the column range, `none` (JS `false`) if there is none.
`y2 = none` defaults to the last grid row. -/
def checkGridRange (x1 x2 : Int) (y1 : Int) (y2 : Option Int) (grid : Grid) :
    Except Err (Option Int) :=
  let y2v := y2.getD ((grid.length : Int) - 1)
  checkGridRangeGo x1 x2 grid y1 (y2v - y1 + 1).toNat

/-- `_compareGridRows(row1, row2)`: no cell is used in both rows.  The
source iterates `row1` and reads `row2[i]`, which is `undefined`
(falsy) past the end of `row2`. -/
def compareGridRows : List Bool → List Bool → Bool
  | [], _ => true
  | _ :: as, [] => compareGridRows as []
  | a :: as, b :: bs => !(a && b) && compareGridRows as bs

/-- `_compareGridRows` when `row2` is a JS indexing result that may be
`undefined`: the short-circuit `e && row2[i]` only dereferences
`row2[i]` when `e` is true, so an all-free `row1` compares fine against
`undefined`, anything else throws a TypeError. -/
def compareGridRowsOpt (row1 : List Bool) : Option (List Bool) → Except Err Bool
  | some row2 => Except.ok (compareGridRows row1 row2)
  | none => if row1.all (fun b => !b) then Except.ok true else Except.error Err.typeError

/-- The `GridCheck` result object of `_checkFitInGrid` and
`_forceCluster`.  The `alternative` and `log` properties of the source
are never read anywhere and are omitted. -/
structure GridCheck where
  fit : Bool
  row : Option Int
  count : Nat
  requested : Option Int := none
  deriving DecidableEq, Repr

/-- The requested-row inner loop of `_checkFitInGrid`: starting at
relative row `j`, count how many further rows of `grid1` match
`grid2[ρ+j]`, stopping at a missing row (`if (!grid2[row+j]) break`)
or a clash.  `n` bounds the loop at `grid1.length - 1` iterations. -/
def fitRunFrom (grid1 grid2 : Grid) (ρ : Int) : Nat → Nat → Nat
  | _, 0 => 0
  | j, n + 1 =>
    match gridGet grid2 (ρ + (j : Int)) with
    | none => 0
    | some r2 =>
      if compareGridRows (grid1.getD j []) r2 then 1 + fitRunFrom grid1 grid2 ρ (j + 1) n
      else 0

/-- The search-branch inner loop of `_checkFitInGrid`: `for (let j = 1;
j < grid1.length && j + row < grid2.length; j++)` counting matching
rows below a found space at row `i`. -/
def fitRunSearch (grid1 grid2 : Grid) (i : Nat) : Nat → Nat → Nat
  | _, 0 => 0
  | j, n + 1 =>
    if compareGridRows (grid1.getD j []) (grid2.getD (i + j) []) then
      1 + fitRunSearch grid1 grid2 i (j + 1) n
    else 0

/-- The search loop of `_checkFitInGrid`: find the first row of `grid2`
whose cells clash nowhere with `grid1[0]`, then count how far the rest
of `grid1` fits below it.  An empty `grid2` never dereferences
`grid1[0]`; a nonempty one with empty `grid1` throws. -/
def fitSearch (grid1 grid2 : Grid) : List (List Bool) → Nat → Except Err GridCheck
  | [], _ => Except.ok { fit := false, row := none, count := 0 }
  | r :: rest, i =>
    match grid1.head? with
    | none => Except.error Err.typeError
    | some row1 =>
      if compareGridRows row1 r then
        let n := min (grid1.length - 1) (grid2.length - 1 - i)
        let count := 1 + fitRunSearch grid1 grid2 i 1 n
        Except.ok { fit := count = grid1.length, row := some (i : Int), count := count }
      else fitSearch grid1 grid2 rest (i + 1)

/-- `_checkFitInGrid(grid1, grid2, row)`: can `grid1` be overlaid on
`grid2`?  With `row` given, first try exactly there; if the first row
clashes, fall through to the anywhere-search (the source only returns
early when the first row matched). -/
def checkFitInGrid (grid1 grid2 : Grid) (row : Option Int) : Except Err GridCheck :=
  let atRow : Except Err (Option GridCheck) :=
    match row with
    | none => Except.ok none
    | some ρ =>
      match grid1.head? with
      | none => Except.error Err.typeError
      | some row1 =>
        match compareGridRowsOpt row1 (gridGet grid2 ρ) with
        | Except.error e => Except.error e
        | Except.ok true =>
          let count := 1 + fitRunFrom grid1 grid2 ρ 1 (grid1.length - 1)
          Except.ok (some { fit := count = grid1.length, row := some ρ, count := count,
                            requested := row })
        | Except.ok false => Except.ok none
  match atRow with
  | Except.error e => Except.error e
  | Except.ok (some gc) => Except.ok gc
  | Except.ok none =>
    match fitSearch grid1 grid2 grid2 0 with
    | Except.error e => Except.error e
    | Except.ok gc => Except.ok { gc with requested := row }

/-- The `while` scan of `_makeGridRelative`, advancing past leading
all-free rows: `while (r < grid.length - 1 && checkGridRow(r, 0,
grid[0].length - 1, grid)) r++`.  `n` bounds the scan. -/
def makeGridRelativeGo (grid : Grid) (len0m1 : Int) : Int → Nat → Except Err Int
  | r, 0 => Except.ok r
  | r, n + 1 =>
    if r < (grid.length : Int) - 1 then
      match checkGridRow r 0 len0m1 grid with
      | Except.error e => Except.error e
      | Except.ok true => makeGridRelativeGo grid len0m1 (r + 1) n
      | Except.ok false => Except.ok r
    else Except.ok r

/-- `_makeGridRelative(grid)`: drop leading all-free rows. -/
def makeGridRelative (grid : Grid) : Except Err Grid :=
  match grid.head? with
  | none => Except.error Err.typeError
  | some row0 =>
    match makeGridRelativeGo grid ((row0.length : Int) - 1) 0 (grid.length + 1) with
    | Except.error e => Except.error e
    | Except.ok r => Except.ok (grid.drop r.toNat)

/-- A `relativeRows` record: `{ row, relative, actual }`.  `actual` is
only written by the final deviation pass; an absent value stands for a
property not yet assigned (or a JS `NaN`). -/
structure Rel where
  row : Int
  relative : Int
  actual : Option Int := none
  deriving DecidableEq, Repr

/-- A `DiagramEntry`.  Optional relational fields model the sparse
dynamic properties of the source.  `cluster` holds indices into the
positioner's entries list (the source stores object references into
that same array); `relativeRows` is keyed by master-entry id in
insertion order, like a JS object.  The `links` and `group` dataset
properties are read into entries but never used by the positioner and
are omitted.  The `end` field is written `stop` here (`end` is a Lean
keyword); it is the `data-end` year. -/
structure Entry where
  id : String
  start : Int
  stop : Int
  become : Option String := none
  merge : Option String := none
  split : Option String := none
  row : Option Int := none
  cluster : Option (List Nat) := none
  relativeRows : List (String × Rel) := []
  grid : Option Grid := none
  rowTemp : Option Int := none
  ids : Option (List String) := none
  chain : Bool := false
  anchor : Option Int := none
  deviation : Option Int := none
  deriving DecidableEq, Repr

/-- The mutable positioner state: `this._entries`, `this._grid` and the
`this._order` trace of `_positionCluster` calls. -/
structure St where
  entries : List Entry
  grid : Grid
  order : List String
  deriving DecidableEq, Repr

/-- Dereference an entry "object reference" (an index into
`this._entries`); a bad index is a JS `undefined` whose member access
throws. -/
def getEntry (st : St) (i : Nat) : Except Err Entry :=
  match st.entries.get? i with
  | none => Except.error Err.typeError
  | some e => Except.ok e

/-- In-place mutation of one entry object. -/
def setEntry (st : St) (i : Nat) (e : Entry) : St :=
  { st with entries := st.entries.set i e }

/-- In-place update of one entry object. -/
def updEntry (st : St) (i : Nat) (f : Entry → Entry) : St :=
  match st.entries.get? i with
  | none => st
  | some e => setEntry st i (f e)

/-- JS object read `entry.relativeRows[key]`; a missing key is
`undefined`, whose member access throws. -/
def relLookup (e : Entry) (key : String) : Except Err Rel :=
  match e.relativeRows.find? (fun p => p.1 = key) with
  | none => Except.error Err.typeError
  | some p => Except.ok p.2

/-- JS object write `rel[key] = v`: replace an existing key in place,
append a new one (JS objects preserve insertion order). -/
def relSet (rels : List (String × Rel)) (key : String) (v : Rel) : List (String × Rel) :=
  if rels.any (fun p => p.1 = key) then
    rels.map (fun p => if p.1 = key then (key, v) else p)
  else rels ++ [(key, v)]

/-- `_findEntriesByValue("id", v)` as indices (first-match uses of the
source take `[0]`). -/
def idxById (entries : List Entry) (v : String) : List Nat :=
  (List.range entries.length).filter (fun j => (entries.get? j).elim false (fun e => e.id = v))

/-- `_createGrid(entries)`: size the grid to the highest pre-set row
(`entries.filter(e => e.row)` — a row of `0` is falsy and ignored) and
block each pre-set entry's span. -/
def createGrid (cfg : Cfg) (entries : List Entry) : Except Err Grid :=
  let setRows := entries.filter (fun e => jsTruthy e.row)
  let rows : Nat :=
    if setRows.isEmpty then 1
    else ((setRows.map (fun (e : Entry) => e.row.getD 0)).foldl max 0).toNat + 1
  let grid : Grid := List.replicate rows (newRow cfg)
  foldE (fun g (e : Entry) => blockGridRow (e.row.getD 0) (yearToGrid cfg e.start)
          (yearToGrid cfg e.stop) g) grid setRows

/-- `_getAnyRow(start, end)` against a given grid: first free row via
`_checkGridRange`, else push a fresh row and use it.  Returns the row
and the (possibly grown) grid, since `_addGridRow` mutates it. -/
def getAnyRowOn (cfg : Cfg) (grid : Grid) (start stop : Int) : Except Err (Int × Grid) := do
  let r ← checkGridRange (yearToGrid cfg start) (yearToGrid cfg stop) 0 none grid
  match r with
  | some row => pure (row, grid)
  | none =>
    let g := addGridRow cfg grid
    pure ((g.length : Int) - 1, g)

/-- The old-span-freeing guard of `_assignRow`: `if (entry.row)
this._freeGridRow(...)` — a row of `0` is falsy and is NOT freed. -/
def assignRowFreeOld (cfg : Cfg) (e : Entry) (st : St) : Except Err St :=
  if jsTruthy e.row then do
    let g ← freeGridRow (e.row.getD 0) (yearToGrid cfg e.start) (yearToGrid cfg e.stop)
      st.grid
    pure { st with grid := g }
  else pure st

/-- `_assignRow(row, entry)`: free the old span when the entry already
has a truthy row (see `assignRowFreeOld`), then record the new row and
block its span in the master grid. -/
def assignRow (cfg : Cfg) (row : Int) (i : Nat) (st : St) : Except Err St := do
  let e ← getEntry st i
  let st ← assignRowFreeOld cfg e st
  let st := updEntry st i (fun e => { e with row := some row })
  let e2 ← getEntry st i
  let g ← blockGridRow row (yearToGrid cfg e2.start) (yearToGrid cfg e2.stop) st.grid
  pure { st with grid := g }

/-- `_mergeBecomeEntries(e, entries)`: follow `e.become` to its target
(found by id, or by membership in an already-collapsed entry's `ids`),
recursively collapse the target's own chain, and merge: the result
keeps `e`'s start, takes the terminal's end, stacks the id list, and
takes the target's `merge` when present (`if (t.merge) e.merge =
t.merge`).  The recursion has no cycle guard in the source; fuel
exhaustion models divergence.  A missing target is modelled as
`badBecomeTarget` (see `Err.badBecomeTarget`). -/
def mergeBecomeEntries : Nat → Entry → List Entry → Res Entry
  | 0, _, _ => divR
  | fuel + 1, e, entries =>
    let t? := entries.find? (fun x =>
      match x.ids, e.become with
      | some l, some b => l.contains b
      | some _, none => false
      | none, some b => x.id == b
      | none, none => false)
    match t? with
    | none => errR Err.badBecomeTarget
    | some t0 =>
      bindR (if t0.become ≠ none then mergeBecomeEntries fuel t0 entries else okR t0) fun t =>
      let ids := match t.ids with
        | some l => e.id :: l
        | none => [e.id, t.id]
      okR { e with
              ids := some ids
              chain := true
              stop := t.stop
              become := none
              merge := if t.merge ≠ none then t.merge else e.merge }

/-- JS stable ascending sort by `start` (`sort((a, b) => a.start -
b.start)`; modern engines sort stably).  Insertion sort is stable and
reduces structurally. -/
def sortByStart (l : List Entry) : List Entry :=
  l.insertionSort (fun a b => a.start ≤ b.start)

/-- One iteration of the become-collapse loop of `_readEntries`: if the
snapshot element is still present, merge its chain, splice the merged
entry over it, then remove each collapsed id beyond the first.  The
removal uses `entries.splice(entries.findIndex(...), 1)`: when the id
is no longer found, `findIndex` is `-1` and `splice(-1, 1)` removes the
LAST element of the array. -/
def collapseStep (fuel : Nat) (entries : List Entry) (e : Entry) : Res (List Entry) :=
  if entries.contains e then
    bindR (mergeBecomeEntries fuel e entries) fun n =>
    let idx := entries.indexOf e
    let entries := entries.set idx n
    let removals := (n.ids.getD []).drop 1
    okR (removals.foldl (fun (es : List Entry) id =>
      match es.findIdx? (fun x => x.id == id) with
      | some j => es.eraseIdx j
      | none => es.dropLast) entries)
  else okR entries

/-- The become-collapse loop of `_readEntries`: iterate over a sorted
snapshot of the entries that have `become`, collapsing each chain. -/
def collapseBecome (fuel : Nat) (entries : List Entry) : Res (List Entry) :=
  let snapshot := sortByStart (entries.filter (fun e => jsTruthyS e.become))
  foldR (collapseStep fuel) entries snapshot

/-- One property step of `_removeBadIds`: if the property is set but
matches no entry id, re-point it at the first entry whose collapsed
`ids` contain it — `this._findEntriesByValue("ids", ...)[0].id` throws
a TypeError when that list is empty. -/
def removeBadIdsProp (entries : List Entry) (getP : Entry → Option String)
    (setP : Entry → Option String → Entry) (entry : Entry) : Except Err Entry :=
  match getP entry with
  | none => Except.ok entry
  | some v =>
    if (entries.filter (fun x => x.id == v)).isEmpty then
      match (entries.filter (fun x => (x.ids.getD []).contains v)).head? with
      | none => Except.error Err.typeError
      | some x => Except.ok (setP entry (some x.id))
    else Except.ok entry

/-- `_removeBadIds(entry, entries)` over its `props = ["merge",
"split"]` loop. -/
def removeBadIds (entry : Entry) (entries : List Entry) : Except Err Entry :=
  match removeBadIdsProp entries (fun e => e.merge) (fun e v => { e with merge := v }) entry with
  | Except.error er => Except.error er
  | Except.ok entry =>
    removeBadIdsProp entries (fun e => e.split) (fun e v => { e with split := v }) entry

/-- The re-pointing loop of `_readEntries`: `for (let entry of
entries.filter(e => e.merge).concat(entries.filter(e => e.split)))
entry = this._removeBadIds(entry, entries)`, mutating each entry in
place. -/
def removeBadIdsPhase (entries : List Entry) : Except Err (List Entry) :=
  let snapshot :=
    (List.range entries.length).filter
      (fun j => (entries.get? j).elim false (fun e => jsTruthyS e.merge))
    ++ (List.range entries.length).filter
      (fun j => (entries.get? j).elim false (fun e => jsTruthyS e.split))
  foldE (fun es j =>
    match es.get? j with
    | none => Except.ok es
    | some entry =>
      match removeBadIds entry es with
      | Except.error e => Except.error e
      | Except.ok entry2 => Except.ok (es.set j entry2)) entries snapshot

/-- `_getCluster(entry, entries)` with object references as indices:
the entry itself, plus entries whose `split` points to it, plus entries
whose `merge` points to it unless this entry split from them
(`entry.split !== m.id`) or they merge exactly at this entry's start
(`m.end !== entry.start`), plus the target of this entry's `merge`
when that target starts at this entry's end. -/
def getClusterIdx (entries : List Entry) (i : Nat) : List Nat :=
  match entries.get? i with
  | none => [i]
  | some entry =>
    let idxs := List.range entries.length
    [i]
    ++ idxs.filter (fun j => (entries.get? j).elim false (fun x => x.split == some entry.id))
    ++ idxs.filter (fun j => (entries.get? j).elim false (fun m =>
         m.merge == some entry.id && !(entry.split == some m.id) && !(m.stop == entry.start)))
    ++ idxs.filter (fun j => (entries.get? j).elim false (fun x =>
         some x.id == entry.merge && x.start == entry.stop))

/-- The cluster-annotation loop of `_readEntries`: only entries whose
computed cluster has more than one element get the `cluster`
property. -/
def attachClusters (entries : List Entry) : List Entry :=
  entries.enum.map (fun p =>
    let c := getClusterIdx entries p.1
    if c.length > 1 then { p.2 with cluster := some c } else p.2)

/-- `_readEntries` after attribute parsing (the input is already the
typed entity model): collapse become chains, re-point dangling
merge/split ids, annotate clusters. -/
def readEntries (fuel : Nat) (entries : List Entry) : Res (List Entry) :=
  bindR (collapseBecome fuel entries) fun entries =>
  bindR (liftE (removeBadIdsPhase entries)) fun entries =>
  okR (attachClusters entries)

/-- Dereference `entry.cluster` (a list of references into the entries
array, i.e. indices); `undefined.filter`/`undefined.length` throw. -/
def clusterOf (st : St) (i : Nat) : Except Err (List Nat) := do
  let e ← getEntry st i
  match e.cluster with
  | none => Except.error Err.typeError
  | some c => pure c

/-- Resolve a list of entry references.  Cluster lists are built from
valid indices, so nothing is dropped in practice. -/
def entriesAt (st : St) (idxs : List Nat) : List Entry :=
  idxs.filterMap (fun j => st.entries.get? j)

/-- Update the `row` field of one `relativeRows` record in place. -/
def relUpdateRow (rels : List (String × Rel)) (key : String) (t : Int) :
    List (String × Rel) :=
  rels.map (fun p => if p.1 = key then (p.1, { p.2 with row := t }) else p)

/-- `_calculateClusterPositions(entry)`: build the cluster's local grid
(absolute, then trimmed relative), seed the master's `rowTemp` from any
pre-set member rows, give the master a row in the local grid if still
unset, give every remaining member an arbitrary free local row, then
record every member's `relativeRows[entry.id] = { row, relative }` and
delete the `rowTemp`s.  (The `SplitsMerges` list of the source is
computed, sorted and then iterated with an empty loop body — no
observable effect — and is omitted.) -/
def calculateClusterPositions (cfg : Cfg) (st : St) (i : Nat) : Except Err St :=
  match clusterOf st i with
  | Except.error e => Except.error e
  | Except.ok members =>
  match getEntry st i with
  | Except.error e => Except.error e
  | Except.ok entry =>
  match createGrid cfg (entriesAt st members) with
  | Except.error e => Except.error e
  | Except.ok gridAbs =>
  match makeGridRelative gridAbs with
  | Except.error e => Except.error e
  | Except.ok grid =>
  let diff : Int := (gridAbs.length : Int) - grid.length
  let st := updEntry st i (fun e => { e with grid := some grid })
  -- `for (const c of entry.cluster.filter(e => e.row)) entry.rowTemp = c.row - diff`
  let st := ((entriesAt st members).filter (fun c => jsTruthy c.row)).foldl
      (fun st c => updEntry st i (fun e => { e with rowTemp := some (c.row.getD 0 - diff) })) st
  match getEntry st i with
  | Except.error e => Except.error e
  | Except.ok eMaster =>
  let masterStep : Except Err St :=
    if eMaster.rowTemp.isNone then
      match eMaster.grid with
      | none => Except.error Err.typeError
      | some cg =>
        match getAnyRowOn cfg cg eMaster.start eMaster.stop with
        | Except.error e => Except.error e
        | Except.ok (row, g) =>
          match blockGridRow row (yearToGrid cfg eMaster.start) (yearToGrid cfg eMaster.stop) g with
          | Except.error e => Except.error e
          | Except.ok g2 =>
            Except.ok (updEntry st i (fun e => { e with rowTemp := some row, grid := some g2 }))
    else Except.ok st
  match masterStep with
  | Except.error e => Except.error e
  | Except.ok st =>
  -- `for (const c of entry.cluster.filter(c => c.rowTemp === undefined))`
  let snap := members.filter (fun j => (st.entries.get? j).elim false (fun c => c.rowTemp.isNone))
  match foldE (fun st j =>
      match getEntry st j with
      | Except.error e => Except.error e
      | Except.ok c =>
      match getEntry st i with
      | Except.error e => Except.error e
      | Except.ok eI =>
      match eI.grid with
      | none => Except.error Err.typeError
      | some cg =>
        match getAnyRowOn cfg cg c.start c.stop with
        | Except.error e => Except.error e
        | Except.ok (row, g) =>
          match blockGridRow row (yearToGrid cfg c.start) (yearToGrid cfg c.stop) g with
          | Except.error e => Except.error e
          | Except.ok g2 =>
            let st := updEntry st i (fun e => { e with grid := some g2 })
            Except.ok (updEntry st j (fun e => { e with rowTemp := some row }))) st snap with
  | Except.error e => Except.error e
  | Except.ok st =>
  match getEntry st i with
  | Except.error e => Except.error e
  | Except.ok eNow =>
  -- every member (the master included) has a `rowTemp` at this point
  let masterTemp := eNow.rowTemp.getD 0
  let st := members.foldl (fun st j => updEntry st j (fun c =>
      let rel : Rel := { row := c.rowTemp.getD 0, relative := c.rowTemp.getD 0 - masterTemp }
      { c with relativeRows := relSet c.relativeRows entry.id rel })) st
  let st := members.foldl (fun st j => updEntry st j (fun c => { c with rowTemp := none })) st
  Except.ok st

/-- `_shuntClusterEntries(row, count, entry)`: splice `count` fresh
rows into the cluster grid at `row`, then push every member whose
local row is at or below the insertion point down by `count` (via the
`rowTemp`/`relativeRows` dance of the source). -/
def shuntClusterEntries (cfg : Cfg) (row : Int) (count : Nat) (st : St) (i : Nat) :
    Except Err St :=
  if count = 0 then Except.ok st
  else
    match getEntry st i with
    | Except.error e => Except.error e
    | Except.ok entry =>
    match entry.grid with
    | none => Except.error Err.typeError
    | some g =>
    let idx := min row.toNat g.length
    let g := g.take idx ++ List.replicate count (newRow cfg) ++ g.drop idx
    let st := updEntry st i (fun e => { e with grid := some g })
    match entry.cluster with
    | none => Except.error Err.typeError
    | some members =>
    let snap := members.filter (fun j => (st.entries.get? j).elim false
        (fun e => jsTruthy e.rowTemp || !e.relativeRows.isEmpty))
    Except.ok (snap.foldl (fun st j => updEntry st j (fun e =>
      let e := if e.rowTemp.isNone && e.relativeRows.any (fun p => p.1 = entry.id) then
          { e with rowTemp := some ((e.relativeRows.find? (fun p => p.1 = entry.id)).elim 0
              (fun p => p.2.row)) }
        else e
      let e := match e.rowTemp with
        | some t => if t ≥ row then { e with rowTemp := some (t + count) } else e
        | none => e
      if e.relativeRows.any (fun p => p.1 = entry.id) then
        { e with relativeRows := relUpdateRow e.relativeRows entry.id (e.rowTemp.getD 0)
                 rowTemp := none }
      else e)) st)

/-- `_fitCluster(entry)`: grow the master grid to the cluster grid's
height, temporarily free the spans of members that already have a row
from the cluster grid, try `_checkFitInGrid` at the pinned position
(if any) with the bounded grid-growing retries of the source, re-block
the freed spans, and return the resulting `GridCheck`.  (The unused
`alternative` computation is omitted; `_checkFitInGrid` is pure.) -/
def fitCluster (cfg : Cfg) (st : St) (i : Nat) : Except Err (GridCheck × St) :=
  match getEntry st i with
  | Except.error e => Except.error e
  | Except.ok entry =>
  match entry.grid with
  | none => Except.error Err.typeError
  | some cg0 =>
  let st := { st with grid := addGridRows cfg st.grid (cg0.length - st.grid.length) }
  match entry.cluster with
  | none => Except.error Err.typeError
  | some members =>
  let presets := members.filter (fun j => (st.entries.get? j).elim false (fun b => jsTruthy b.row))
  match foldE (fun g j =>
      match getEntry st j with
      | Except.error e => Except.error e
      | Except.ok a =>
      match relLookup a entry.id with
      | Except.error e => Except.error e
      | Except.ok rel =>
        freeGridRow rel.row (yearToGrid cfg a.start) (yearToGrid cfg a.stop) g) cg0 presets with
  | Except.error e => Except.error e
  | Except.ok cg =>
  let st := updEntry st i (fun e => { e with grid := some cg })
  let positionE : Except Err (Option Int) :=
    if jsTruthy entry.row then
      match relLookup entry entry.id with
      | Except.error e => Except.error e
      | Except.ok rel => Except.ok (some (entry.row.getD 0 - rel.row))
    else Except.ok none
  match positionE with
  | Except.error e => Except.error e
  | Except.ok position =>
  match checkFitInGrid cg st.grid position with
  | Except.error e => Except.error e
  | Except.ok r =>
  -- `while (r.row > 0 && this._grid.length < entry.grid.length + r.row)`
  let st := match r.row with
    | some ρ =>
      if ρ > 0 then
        { st with grid := addGridRows cfg st.grid (((cg.length : Int) + ρ - st.grid.length).toNat) }
      else st
    | none => st
  match checkFitInGrid cg st.grid position with
  | Except.error e => Except.error e
  | Except.ok r =>
  -- `const x = ...; while (r.row == null && !entry.row && this._grid.length < x)`
  let x := st.grid.length + cg.length
  let st :=
    if r.row.isNone && !jsTruthy entry.row && st.grid.length < x then
      { st with grid := addGridRows cfg st.grid (x - st.grid.length) }
    else st
  match checkFitInGrid cg st.grid position with
  | Except.error e => Except.error e
  | Except.ok r =>
  match foldE (fun g j =>
      match getEntry st j with
      | Except.error e => Except.error e
      | Except.ok a =>
      match relLookup a entry.id with
      | Except.error e => Except.error e
      | Except.ok rel =>
        blockGridRow rel.row (yearToGrid cfg a.start) (yearToGrid cfg a.stop) g) cg presets with
  | Except.error e => Except.error e
  | Except.ok cg2 =>
    let st := updEntry st i (fun e => { e with grid := some cg2 })
    Except.ok (r, st)

/-- `_shiftGridEntries(row, x1, x2, grid)`: push every entry occupying
the given span of `row` one row down, recursively clearing the row
below first when it is blocked, growing the grid at the bottom.  The
source recursion has no depth guard; fuel exhaustion models
divergence. -/
def shiftGridEntries (cfg : Cfg) : Nat → St → Int → Int → Int → Res (List String × St)
  | 0, _, _, _, _ => divR
  | fuel + 1, st, row, x1, x2 =>
    let affected := (List.range st.entries.length).filter (fun j =>
      (st.entries.get? j).elim false (fun e =>
        e.row == some row && decide (yearToGrid cfg e.stop ≥ x1) &&
          decide (yearToGrid cfg e.start ≤ x2)))
    foldR (fun (acc : List String × St) j =>
      let (moved, st) := acc
      bindR (liftE (getEntry st j)) fun entry =>
      let e1 := yearToGrid cfg entry.start
      let e2 := yearToGrid cfg entry.stop
      let st := if row + 1 ≥ (st.grid.length : Int) then
          { st with grid := addGridRow cfg st.grid } else st
      bindR (liftE (checkGridRow (row + 1) e1 e2 st.grid)) fun free =>
      bindR (if free then okR ([], st) else shiftGridEntries cfg fuel st (row + 1) e1 e2)
        fun res2 =>
      let (moved2, st) := res2
      bindR (liftE (getEntry st j)) fun entryNow =>
      bindR (liftE (assignRow cfg (entryNow.row.getD 0 + 1) j st)) fun st =>
      okR (moved ++ moved2 ++ [entry.id], st)) (([] : List String), st) affected

/-- `_freePosition(row, entry)`: nothing to do when the entry already
sits there or the span is free; otherwise cascade-shift the blockers
down. -/
def freePosition (cfg : Cfg) (fuel : Nat) (st : St) (row : Int) (i : Nat) :
    Res (List String × St) :=
  bindR (liftE (getEntry st i)) fun entry =>
  if entry.row == some row then okR ([], st)
  else
    bindR (liftE (checkGridRow row (yearToGrid cfg entry.start) (yearToGrid cfg entry.stop)
      st.grid)) fun free =>
    if free then okR ([], st)
    else shiftGridEntries cfg fuel st row (yearToGrid cfg entry.start)
      (yearToGrid cfg entry.stop)

/-- `_findBetterRelativePosition(entry)`: sum the net row preference
over all clusters the entry belongs to, then return the first free row
in the span between the current row and the preferred one (`false`,
i.e. `none`, when there is none).  An unset or zero row returns
`false` immediately (`if (!entry.row) return false`). -/
def findBetterRelativePosition (cfg : Cfg) (st : St) (j : Nat) : Except Err (Option Int) := do
  let entry ← getEntry st j
  if !jsTruthy entry.row then pure none
  else
    let row := entry.row.getD 0
    let preference ← foldE (fun (acc : Int) (p : String × Rel) =>
        match st.entries.find? (fun t => t.id == p.1) with
        | none => Except.error Err.typeError
        | some target =>
          Except.ok (if jsTruthy target.row then
              acc + (target.row.getD 0 + p.2.relative) - row
            else acc)) 0 entry.relativeRows
    checkGridRange (yearToGrid cfg entry.start) (yearToGrid cfg entry.stop)
      (if preference > 0 then row else row + preference)
      (some (if preference > 0 then row + preference else row)) st.grid

/-- `_adjustCluster(entry)`: try to move each member of the cluster to
a better row.  The source filter `e => e !== entry.id` compares an
object reference to a string and is always true, so every member is
examined; and `if (r)` treats a returned row `0` as "no better
place". -/
def adjustCluster (cfg : Cfg) (st : St) (i : Nat) : Except Err St := do
  let entry ← getEntry st i
  match entry.cluster with
  | none => Except.error Err.typeError
  | some members =>
    foldE (fun st j => do
      let r ← findBetterRelativePosition cfg st j
      match r with
      | some r => if r ≠ 0 then assignRow cfg r j st else pure st
      | none => pure st) st members

/-- `_forceCluster(entry, row)`: make room for the whole cluster around
the anchor row, shifting blockers out of each member's target row
(master first, then members above it, then below), then re-adjust.
Throws `Cannot force position without a row` when no row argument is
given and the entry's row is falsy (unset or `0`). -/
def forceCluster (cfg : Cfg) (fuel : Nat) (st : St) (i : Nat) (row : Option Int) :
    Res (GridCheck × St) :=
  bindR (liftE (getEntry st i)) fun entry =>
  if row.isNone && !jsTruthy entry.row then errR Err.forceNoRow
  else
    let row : Int := match row with
      | some ρ => ρ
      | none => entry.row.getD 0
    bindR (liftE (relLookup entry entry.id)) fun relE =>
    let diff := row - relE.row
    bindR (if !jsTruthy entry.row then
        bindR (freePosition cfg fuel st row i) fun mv => okR mv.2
      else okR st) fun st =>
    bindR (liftE (clusterOf st i)) fun members =>
    bindR (liftE (foldE (fun (acc : List Nat) j => do
        let e ← getEntry st j
        let rel ← relLookup e entry.id
        pure (if rel.row < relE.row then acc ++ [j] else acc))
      [] members)) fun before =>
    bindR (foldR (fun st j =>
        bindR (liftE (getEntry st j)) fun e =>
        bindR (liftE (relLookup e entry.id)) fun rel =>
        bindR (freePosition cfg fuel st (rel.row + diff) j) fun mv => okR mv.2) st before)
      fun st =>
    bindR (liftE (foldE (fun (acc : List Nat) j => do
        let e ← getEntry st j
        let rel ← relLookup e entry.id
        pure (if rel.row > relE.row then acc ++ [j] else acc))
      [] members)) fun after =>
    bindR (foldR (fun st j =>
        bindR (liftE (getEntry st j)) fun e =>
        bindR (liftE (relLookup e entry.id)) fun rel =>
        bindR (freePosition cfg fuel st (rel.row + diff) j) fun mv => okR mv.2) st after)
      fun st =>
    bindR (liftE (adjustCluster cfg st i)) fun st =>
    bindR (liftE (getEntry st i)) fun entryNow =>
    match entryNow.grid with
    | none => errR Err.typeError
    | some g => okR ({ fit := true, row := some (row - relE.row), count := g.length }, st)

/-- The membership scan of `_findRelatedClusterSource`: entries whose
`cluster` contains this one, excluding itself by id. -/
def frcsSteps (st : St) (i : Nat) (entryId : String) : List Nat :=
  (List.range st.entries.length).filter (fun j =>
    (st.entries.get? j).elim false (fun e =>
      (e.cluster.getD []).contains i && !(e.id == entryId)))

/-- `_findRelatedClusterSource(entry)`: follow cluster membership back
towards a root.  The break condition `step.id == entry.merge &&
entry.split && !step.cluster.includes(this._findEntriesByValue(...))`
compares cluster members against a freshly created array, so its last
conjunct is always true.  The recursion has no visited guard; fuel
exhaustion models divergence (mutual cluster membership recurses
forever in the source). -/
def findRelatedClusterSource (st : St) : Nat → Nat → Res Nat
  | 0, _ => divR
  | fuel + 1, i =>
    bindR (liftE (getEntry st i)) fun entry =>
    bindR (foldR (fun (acc : Nat × Bool) j =>
        if acc.2 then okR acc
        else
          bindR (liftE (getEntry st j)) fun step =>
          if some step.id == entry.merge && jsTruthyS entry.split then okR (acc.1, true)
          else bindR (findRelatedClusterSource st fuel j) fun g => okR (g, false))
      (i, false) (frcsSteps st i entry.id)) fun acc =>
    okR acc.1

/-- `_positionCluster(entry)`: record the visit in `_order`, evaluate
the root chase (a `console.log` in the source, but it runs the
recursive chase), require a calculated cluster grid, try `_fitCluster`,
fall back to forcing (when the master is pinned on a truthy row) and
then to shunting, assign every member its row when a fit was found,
and recurse into linked clusters.  The linked filter's
`e.cluster.map(r => !r.row).length > 0` is the length of a mapped copy
of a nonempty list and is always true. -/
def positionCluster (cfg : Cfg) : Nat → St → Nat → Res St
  | 0, _, _ => divR
  | fuel + 1, st, i =>
    bindR (liftE (getEntry st i)) fun entry =>
    let st := { st with order := st.order ++ [entry.id] }
    bindR (findRelatedClusterSource st fuel i) fun _ =>
    if entry.grid.isNone then errR Err.noGroupGrid
    else
    bindR (liftE (fitCluster cfg st i)) fun rs =>
    let (space, st) := rs
    bindR (if !space.fit && jsTruthy entry.row then
        bindR (liftE (getEntry st i)) fun entryCur =>
        let st := match space.row with
          | some ρ =>
            let need := (((entryCur.grid.getD []).length : Int) + ρ - st.grid.length).toNat
            { st with grid := addGridRows cfg st.grid need }
          | none => st
        bindR (liftE (fitCluster cfg st i)) fun rs2 =>
        forceCluster cfg fuel rs2.2 i none
      else okR (space, st)) fun rs3 =>
    let (space, st) := rs3
    bindR (if !space.fit then
        bindR (liftE (shuntClusterEntries cfg (space.count : Int) 1 st i)) fun st =>
        liftE (fitCluster cfg st i)
      else okR (space, st)) fun rs4 =>
    let (space, st) := rs4
    bindR (if space.fit then
        bindR (liftE (clusterOf st i)) fun members =>
        liftE (foldE (fun st c =>
          match getEntry st c with
          | Except.error e => Except.error e
          | Except.ok cE =>
          let rowE : Except Err Int :=
            if jsTruthy cE.row then Except.ok (cE.row.getD 0)
            else
              match relLookup cE entry.id with
              | Except.error e => Except.error e
              | Except.ok rel => Except.ok (space.row.getD 0 + rel.row)
          match rowE with
          | Except.error e => Except.error e
          | Except.ok row =>
          match (if !(cE.row == some row) then assignRow cfg row c st else Except.ok st) with
          | Except.error e => Except.error e
          | Except.ok st =>
            Except.ok (if cE.cluster.isSome then
                updEntry st c (fun e => { e with anchor := some row })
              else st)) st members)
      else okR st) fun st =>
    bindR (liftE (clusterOf st i)) fun members2 =>
    let linked := members2.filter (fun c =>
      !(c == i) && (st.entries.get? c).elim false (fun e => e.cluster.isSome))
    foldR (fun st c => positionCluster cfg fuel st c) st linked

/-- Phase 2 of `_position`: `while (this._entries.find(e => e.cluster
&& isNaN(e.row)))` — position the root of the first unplaced cluster.
`isNaN` is false for every number including `0`, so only a genuinely
unset row counts. -/
def positionLoop (cfg : Cfg) : Nat → St → Res St
  | 0, st =>
    match st.entries.findIdx? (fun e => e.cluster.isSome && e.row.isNone) with
    | none => okR st
    | some _ => divR
  | fuel + 1, st =>
    match st.entries.findIdx? (fun e => e.cluster.isSome && e.row.isNone) with
    | none => okR st
    | some i =>
      bindR (findRelatedClusterSource st fuel i) fun root =>
      bindR (positionCluster cfg fuel st root) fun st =>
      positionLoop cfg fuel st

/-- Phase 5 of `_position`: per entry, set `relativeRows[key].actual =
row - target.row` and accumulate `deviation = Σ |relative - actual|`.
A missing row would be a JS `NaN` (modelled as `none`), which
propagates through the sum. -/
def deviationPass (st : St) : Except Err St :=
  foldE (fun st i => do
    let e ← getEntry st i
    let rd ← foldE (fun (acc : List (String × Rel) × Option Int) (p : String × Rel) =>
        match st.entries.find? (fun t => t.id == p.1) with
        | none => Except.error Err.typeError
        | some target =>
          let actual : Option Int := match e.row, target.row with
            | some a, some b => some (a - b)
            | _, _ => none
          let dev2 : Option Int := match acc.2, actual with
            | some d, some a => some (d + (p.2.relative - a).natAbs)
            | _, _ => none
          Except.ok (acc.1 ++ [(p.1, { p.2 with actual := actual })], dev2))
      (([], some 0)) e.relativeRows
    pure (setEntry st i { e with relativeRows := rd.1, deviation := rd.2 }))
    st (List.range st.entries.length)

/-- Phase 3 of `_position`: `for (const id of this._order.reverse())
this._adjustCluster(this._findEntriesByValue("id", id)[0])`. -/
def adjustPhase (cfg : Cfg) (st : St) : Except Err St :=
  foldE (fun st id =>
    match st.entries.findIdx? (fun e => e.id == id) with
    | none => Except.error Err.typeError
    | some j => adjustCluster cfg st j) st st.order.reverse

/-- Phase 4 of `_position`: every entry with `row === undefined`
receives the first free row (`_getAnyRow` on the master grid, growing
it when needed) and blocks its span. -/
def leftoverPhase (cfg : Cfg) (st : St) : Except Err St :=
  let snap := (List.range st.entries.length).filter
    (fun i => (st.entries.get? i).elim false (fun e => e.row.isNone))
  foldE (fun st i => do
    let e ← getEntry st i
    let rg ← getAnyRowOn cfg st.grid e.start e.stop
    assignRow cfg rg.1 i { st with grid := rg.2 }) st snap

/-- `_position()`: the five phases in order — relative cluster layout,
recursive global cluster placement, the reversed adjustment pass,
leftover placement, deviation accounting. -/
def position (cfg : Cfg) (fuel : Nat) (st : St) : Res St :=
  let st := { st with order := [] }
  let snap1 := (List.range st.entries.length).filter
    (fun i => (st.entries.get? i).elim false (fun e => e.cluster.isSome))
  bindR (liftE (foldE (fun st i => calculateClusterPositions cfg st i) st snap1)) fun st =>
  bindR (positionLoop cfg fuel st) fun st =>
  bindR (liftE (adjustPhase cfg st)) fun st =>
  bindR (liftE (leftoverPhase cfg st)) fun st =>
  liftE (deviationPass st)

/-- The `DiagramPositioner` constructor pipeline on an already-parsed
entity model: `_readEntries`, `_createGrid`, `_position`. -/
def layout (cfg : Cfg) (fuel : Nat) (entries : List Entry) : Res St :=
  bindR (readEntries fuel entries) fun entries =>
  bindR (liftE (createGrid cfg entries)) fun grid =>
  position cfg fuel { entries := entries, grid := grid, order := [] }

end ILA

namespace ILA.Dist

/-- `_checkGridSpace(y, start, end)` of the bundled positioner variant
(distributed build): is row `y` empty on `[start, end)`, with
`start == end` widened to one unit.  `none` models the TypeError of
slicing an undefined row. -/
def checkGridSpace (grid : ILA.Grid) (y s e : Nat) : Option Bool :=
  let e := if s = e then e + 1 else e
  (grid.get? y).map (fun row => ((row.drop s).take (e - s)).all (fun b => !b))

end ILA.Dist

namespace ILA

/-! ### Specification-side predicates (for refinement comparison)

These definitions follow the wording of the specification, to be
compared against the definitions above, which follow the source. -/

/-- Cluster membership as the specification words it: the entity
itself, plus entities whose `split` points to it, plus entities `m`
whose `merge` points to it "unless this entity is what that entity
split from" (i.e. unless `m.split` names this entity) "or the merge
happens exactly where this entity starts", plus the merge target
starting at this entity's end.  Note the first exclusion reads
`m.split = e.id`, whereas the source tests `e.split === m.id`. -/
def specClusterMem (entries : List Entry) (i j : Nat) : Bool :=
  j == i ||
    ((entries.get? i).elim false fun entry => (entries.get? j).elim false fun x =>
      x.split == some entry.id ||
      (x.merge == some entry.id && !(x.split == some entry.id) && !(x.stop == entry.start)) ||
      (some x.id == entry.merge && x.start == entry.stop))

/-- The no-overlap wording of the specification: the two `[start,end]`
year ranges, each widened to one unit when degenerate and buffered by
one year-unit on each side, do not intersect (as closed integer
intervals). -/
def specBufferedDisjoint (e f : Entry) : Prop :=
  max e.stop (e.start + 1) + 1 < f.start - 1 ∨ max f.stop (f.start + 1) + 1 < e.start - 1

/-- The separation the source actually enforces between two spans on
one row: one of them starts strictly after the other ends. -/
def spansDisjoint (e f : Entry) : Prop :=
  f.start ≥ e.stop + 1 ∨ e.start ≥ f.stop + 1

/-- Read one occupancy cell (row `ρ`, column `c`) of a grid. -/
def cellAt (grid : Grid) (ρ c : Nat) : Bool :=
  (((grid.get? ρ).getD []).get? c).getD false

/-- The set of columns `_markGridRow` blocks for an entity's span: the
core `[start', end')` plus the one-unit buffer on each side that lies
inside the row. -/
def inMarks (cfg : Cfg) (e : Entry) (c : Nat) : Prop :=
  yearToGrid cfg e.start - 1 ≤ (c : Int) ∧ (c : Int) ≤ yearToGrid cfg e.stop

/-- Entities carrying no relationship attributes and no pre-set
positioning state: the inputs handled purely by leftover placement. -/
def relationFree (entries : List Entry) : Prop :=
  ∀ e ∈ entries, e.become = none ∧ e.merge = none ∧ e.split = none ∧
    e.row = none ∧ e.cluster = none ∧ e.relativeRows = [] ∧ e.ids = none

/-- Year sanity for an entity list under a configuration: spans lie on
the axis, are ordered, and avoid the degenerate one-year span at the
very last year (which `_checkGridRow` rejects fatally, see the
invalid-range theorems below). -/
def yearsOk (cfg : Cfg) (entries : List Entry) : Prop :=
  ∀ e ∈ entries, cfg.yearStart ≤ e.start ∧ e.start ≤ e.stop ∧ e.stop ≤ cfg.yearEnd ∧
    ¬(e.start = e.stop ∧ e.stop = cfg.yearEnd)

/-- The occupancy invariant maintained by leftover placement: rows are
well-formed and in range, every placed entity's marks (core plus
buffer, see `inMarks`) show as occupied cells, year bounds hold, and
placed same-row entities are pairwise separated. -/
def PlacedInv (cfg : Cfg) (st : St) : Prop :=
  (∀ r ∈ st.grid, r.length = cfg.xLength.toNat) ∧
  yearsOk cfg st.entries ∧
  (∀ i e r, st.entries.get? i = some e → e.row = some r →
    0 ≤ r ∧ r.toNat < st.grid.length ∧
    ∀ c : Nat, inMarks cfg e c → cellAt st.grid r.toNat c = true) ∧
  (∀ i j e f re rf, i ≠ j → st.entries.get? i = some e → st.entries.get? j = some f →
    e.row = some re → f.row = some rf → re = rf → spansDisjoint e f)

/-- Refinement order on fueled results: more fuel can only turn
divergence into an answer, never change an answer. -/
def resLE {α : Type} (a b : Res α) : Prop := a = divR ∨ a = b

/-! ### Concrete inputs for the claim instances -/

/-- An empty state (used as an unreachable match fallback). -/
def stEmpty : St := { entries := [], grid := [], order := [] }

/-- A 21-year axis. -/
def cfgW : Cfg := { yearStart := 0, yearEnd := 20 }

/-- Unrelated entity spanning years 0-5. -/
def exA : Entry := { id := "A", start := 0, stop := 5 }

/-- Unrelated entity spanning years 6-10: starts one year after `exA`
ends, which is exactly the separation the grid buffer enforces. -/
def exB : Entry := { id := "B", start := 6, stop := 10 }

/-- Mutually merging entities: each one's `merge` names the other, with
no splits, so each belongs to the other's cluster. -/
def mutA : Entry := { id := "A", start := 0, stop := 10, merge := some "B" }

/-- See `mutA`. -/
def mutB : Entry := { id := "B", start := 0, stop := 10, merge := some "A" }

/-- The entries list of the mutual-merge input after `_readEntries`
(cluster annotations attached); equal to `readEntries fuel [mutA,
mutB]` for every fuel, since the input has no become chains. -/
def mutEnts : List Entry :=
  [{ mutA with cluster := some [0, 1] }, { mutB with cluster := some [1, 0] }]

/-- The positioner state of the mutual-merge input after Phase 1
(relative cluster layout), i.e. the state on which the Phase-2 loop
first runs. -/
def mutSt : St :=
  match foldE (fun st i => calculateClusterPositions cfgW st i)
      { entries := mutEnts, grid := [newRow cfgW], order := [] } [0, 1] with
  | Except.ok st => st
  | Except.error _ => stEmpty

/-- The first mutual-merge entity as it sits in `mutSt` (Phase-1
annotations included). -/
def mutE0 : Entry :=
  match getEntry mutSt 0 with
  | Except.ok e => e
  | Except.error _ => mutA

/-- The second mutual-merge entity as it sits in `mutSt`. -/
def mutE1 : Entry :=
  match getEntry mutSt 1 with
  | Except.ok e => e
  | Except.error _ => mutB

/-- The full layout on the mutual-merge input never completes, for any
amount of fuel: the cluster-source chase bounces between the two
entities forever. -/
def mutLayoutDiverges : Prop := ∀ fuel, layout cfgW fuel [mutA, mutB] = divR

/-- Entity that split from `clB` (its `split` names B). -/
def clA : Entry := { id := "A", start := 1900, stop := 1950, split := some "B" }

/-- Entity that merges into `clA` (its `merge` names A, no split). -/
def clB : Entry := { id := "B", start := 1900, stop := 1950, merge := some "A" }

/-- Become chain whose head starts later than an inner member: `chH`
(start 1960) becomes `chM` (start 1900) becomes `chT` (terminal). -/
def chM : Entry := { id := "M", start := 1900, stop := 1950, become := some "T" }

/-- Terminal of the chain, see `chM`. -/
def chT : Entry := { id := "T", start := 1950, stop := 2000 }

/-- Head of the chain, see `chM`. -/
def chH : Entry := { id := "H", start := 1960, stop := 1990, become := some "M" }

/-- Entity whose `merge` names an id that no entity and no collapsed
ids list carries. -/
def ghostA : Entry := { id := "A", start := 1900, stop := 1950, merge := some "ghost" }

/-- A five-year axis. -/
def cfgN : Cfg := { yearStart := 0, yearEnd := 4 }

/-- Degenerate entity sitting at the final year of `cfgW`. -/
def lastYearE : Entry := { id := "Z", start := 20, stop := 20 }

/-- State with one entity already assigned row 0, its span (with
buffer) blocked there, and a free row 1 below. -/
def rowZeroSt : St :=
  { entries := [{ id := "E", start := 0, stop := 2, row := some 0 }]
    grid := [[true, true, true, false, false], [false, false, false, false, false]]
    order := [] }

/-- State with one entity pinned at row 0 for the forcing check. -/
def forceSt : St :=
  { entries := [{ id := "E", start := 0, stop := 2, row := some 0 }]
    grid := [[false, false, false, false, false]]
    order := [] }

/-!  ## Theorems  -/

theorem bindR_divR {α β : Type} (k : α → Res β) : bindR divR k = divR := rfl

theorem bindR_okR {α β : Type} (a : α) (k : α → Res β) : bindR (okR a) k = k a := rfl

theorem bindR_errR {α β : Type} (e : Err) (k : α → Res β) : bindR (errR e) k = errR e := rfl

/-- C7: a single-row free-space check with `x1 == x2` coincides with
the check at `x2 = x1 + 1` — a zero-length span occupies one year-unit
— in the source positioner (`_checkGridRow`) and in the bundled
variant (`_checkGridSpace`) alike. -/
theorem zero_span_checks_one_unit :
    (∀ (grid : Grid) (y x1 : Int), checkGridRow y x1 x1 grid = checkGridRow y x1 (x1 + 1) grid)
    ∧ (∀ (grid : Grid) (y s : Nat),
        Dist.checkGridSpace grid y s s = Dist.checkGridSpace grid y s (s + 1)) := by
  constructor
  · intro grid y x1
    unfold checkGridRow
    rw [if_pos rfl, if_neg (by omega)]
  · intro grid y s
    unfold Dist.checkGridSpace
    rw [if_pos rfl, if_neg (by omega)]

/-- C9: `_assignRow` does not free the master-grid span of an entity
whose current row is `0` before reassigning it (the guard `if
(entry.row)` is falsy at `0`): after moving the entity of `rowZeroSt`
from row 0 to row 1, row 0 still carries the stale occupancy
`[true, true, true]` of the old span. -/
theorem assignRow_row_zero_stale :
    rowZeroSt.entries.get? 0 = some { id := "E", start := 0, stop := 2, row := some 0 } ∧
    assignRow cfgN 1 0 rowZeroSt = Except.ok
      { entries := [{ id := "E", start := 0, stop := 2, row := some 1 }]
        grid := [[true, true, true, false, false], [true, true, true, false, false]]
        order := [] } := by
  constructor
  · rfl
  · rfl

/-- C5: a `merge` reference to an id that matches no entity and no
collapsed ids list makes `_removeBadIds` dereference
`this._findEntriesByValue("ids", ...)[0].id` on an empty result: entry
reading throws (a TypeError), and the whole layout dies with it — no
warning, no skipped relationship, no row. -/
theorem dangling_merge_throws :
    readEntries 10 [ghostA] = errR Err.typeError ∧
    layout cfgW 10 [ghostA] = errR Err.typeError := by
  constructor
  · decide
  · decide

/-- C4: a become chain whose head starts later than an inner member is
collapsed twice: the inner pair first, then the head absorbs the
merged pair, and the removal loop hits `findIndex == -1` for the
already-removed terminal id, so `splice(-1, 1)` deletes the LAST array
element — here the merged survivor itself.  Entry reading returns no
entity at all for the chain `chH → chM → chT`, instead of exactly one
surviving entity. -/
theorem become_chain_head_destroyed :
    readEntries 10 [chM, chT, chH] = okR [] ∧
    collapseBecome 10 [chM, chT, chH] = okR [] := by
  constructor
  · decide
  · decide

/-- C10: for a span with `start == end ==` the final year, the widened
check range runs one past the last grid column: `_checkGridRow` throws
`Invalid range checked`, while `_markGridRow` on the same span
succeeds; a layout containing such an entity dies in leftover
placement. -/
theorem last_year_degenerate_span_fatal :
    (∀ (cfg : Cfg) (grid : Grid) (y : Int) (row : List Bool),
        gridGet grid y = some row → (row.length : Int) = cfg.xLength →
        checkGridRow y (yearToGrid cfg cfg.yearEnd) (yearToGrid cfg cfg.yearEnd) grid
          = Except.error Err.invalidRange)
    ∧ (∀ (cfg : Cfg) (grid : Grid) (y : Int) (row : List Bool),
        gridGet grid y = some row → ((grid.headD []).length : Int) = cfg.xLength →
        (markGridRow y (yearToGrid cfg cfg.yearEnd) (yearToGrid cfg cfg.yearEnd) true
          grid).isOk = true)
    ∧ layout cfgW 10 [lastYearE] = errR Err.invalidRange := by
  refine ⟨?_, ?_, by decide⟩
  · intro cfg grid y row hget hlen
    unfold checkGridRow
    rw [if_pos rfl, hget]
    dsimp only
    have hcond : yearToGrid cfg cfg.yearEnd + 1 > (row.length : Int) - 1 ∨
        yearToGrid cfg cfg.yearEnd < 0 :=
      Or.inl (by simp only [yearToGrid, Cfg.xLength] at hlen ⊢; omega)
    rw [if_pos hcond]
  · intro cfg grid y row hget hlen
    unfold markGridRow
    rw [hget]
    dsimp only
    have hcond : ¬(yearToGrid cfg cfg.yearEnd > ((grid.headD []).length : Int) - 1 ∨
        yearToGrid cfg cfg.yearEnd > ((grid.headD []).length : Int) - 1) := by
      simp only [yearToGrid, Cfg.xLength] at hlen ⊢
      omega
    rw [if_neg hcond]
    rfl

/-- Witness for the grid-bounds parts of the final-year theorem: on a
one-row 21-column grid, the degenerate check at column 20 throws
`Invalid range checked` while the mark succeeds. -/
theorem last_year_degenerate_span_witness :
    checkGridRow 0 (yearToGrid cfgW cfgW.yearEnd) (yearToGrid cfgW cfgW.yearEnd)
        [List.replicate 21 false] = Except.error Err.invalidRange ∧
    (markGridRow 0 (yearToGrid cfgW cfgW.yearEnd) (yearToGrid cfgW cfgW.yearEnd) true
        [List.replicate 21 false]).isOk = true :=
  ⟨(last_year_degenerate_span_fatal.1 cfgW [List.replicate 21 false] 0
      (List.replicate 21 false) rfl (by decide)),
   (last_year_degenerate_span_fatal.2.1 cfgW [List.replicate 21 false] 0
      (List.replicate 21 false) rfl (by decide))⟩

theorem elim_false_eq_true {o : Option Entry} {p : Entry → Bool} :
    o.elim false p = true ↔ ∃ x, o = some x ∧ p x = true := by
  cases o <;> simp

theorem lt_length_of_get?_eq_some {l : List Entry} {j : Nat} {x : Entry}
    (h : l.get? j = some x) : j < l.length := by
  by_contra hlt
  rw [List.get?_eq_none.mpr (by omega)] at h
  exact Option.noConfusion h

/-- C3 counterexample: with `clA` split from `clB` and `clB` merging
into `clA`, the specification's membership rule (exclude `m` when `m`
split from the entity) puts `clB` into `clA`'s cluster, but the source
(which excludes `m` when the ENTITY split from `m`: `entry.split !==
m.id`) computes the singleton cluster `[0]` and attaches no cluster
annotation at all. -/
theorem cluster_exclusion_direction_counterexample :
    specClusterMem [clA, clB] 0 1 = true ∧
    1 ∉ getClusterIdx [clA, clB] 0 ∧
    ((attachClusters [clA, clB]).get? 0).elim false (fun e => e.cluster.isNone) = true := by
  refine ⟨by decide, by decide, by decide⟩

/-- C3 amended: the computed cluster of entity `i` holds exactly:
itself; entities whose `split` references it; entities `m` whose
`merge` references it except when entity `i` itself split from `m`
(`entry.split === m.id` — not, as the specification words it, when `m`
split from entity `i`) or when `m` ends exactly where entity `i`
starts; and the target of entity `i`'s merge when that target starts
at entity `i`'s end.  The cluster annotation is attached exactly when
this list (duplicates included) has more than one element, and no
other field changes. -/
theorem cluster_membership_amended (entries : List Entry) (i j : Nat) (entry : Entry)
    (h : entries.get? i = some entry) :
    (j ∈ getClusterIdx entries i ↔
      (j = i ∨ ∃ x, entries.get? j = some x ∧
        (x.split = some entry.id ∨
         (x.merge = some entry.id ∧ entry.split ≠ some x.id ∧ x.stop ≠ entry.start) ∨
         (some x.id = entry.merge ∧ x.start = entry.stop))))
    ∧ ((attachClusters entries).get? i =
        some (if (getClusterIdx entries i).length > 1 then
            { entry with cluster := some (getClusterIdx entries i) } else entry)) := by
  constructor
  · unfold getClusterIdx
    rw [h]
    dsimp only
    simp only [List.mem_append, List.mem_cons, List.not_mem_nil, or_false,
      List.mem_filter, List.mem_range, elim_false_eq_true, Bool.or_eq_true,
      Bool.and_eq_true, Bool.not_eq_true', beq_iff_eq, beq_eq_false_iff_ne,
      or_assoc, and_assoc]
    constructor
    · rintro (rfl | ⟨-, x, hx, hp⟩ | ⟨-, x, hx, hp1, hp2, hp3⟩ | ⟨-, x, hx, hp⟩)
      · exact Or.inl rfl
      · exact Or.inr ⟨x, hx, Or.inl hp⟩
      · exact Or.inr ⟨x, hx, Or.inr (Or.inl ⟨hp1, hp2, hp3⟩)⟩
      · exact Or.inr ⟨x, hx, Or.inr (Or.inr hp)⟩
    · rintro (rfl | ⟨x, hx, hp | ⟨h1, h2, h3⟩ | hp⟩)
      · exact Or.inl rfl
      · exact Or.inr (Or.inl ⟨lt_length_of_get?_eq_some hx, x, hx, hp⟩)
      · exact Or.inr (Or.inr (Or.inl ⟨lt_length_of_get?_eq_some hx, x, hx, h1, h2, h3⟩))
      · exact Or.inr (Or.inr (Or.inr ⟨lt_length_of_get?_eq_some hx, x, hx, hp⟩))
  · unfold attachClusters
    rw [List.get?_map, List.get?_enum, h]
    rfl

/-- Witness for the amended cluster theorem, instantiated on the
two-entity example: index 0 (`clA`) is a member of `clB`'s computed
cluster because its `split` references `clB`. -/
theorem cluster_membership_amended_witness :
    0 ∈ getClusterIdx [clA, clB] 1 ↔
      (0 = 1 ∨ ∃ x, [clA, clB].get? 0 = some x ∧
        (x.split = some clB.id ∨
         (x.merge = some clB.id ∧ clB.split ≠ some x.id ∧ x.stop ≠ clB.start) ∨
         (some x.id = clB.merge ∧ x.start = clB.stop))) :=
  (cluster_membership_amended [clA, clB] 1 0 clB rfl).1

/-!  Error provenance: no helper of `_forceCluster` ever throws the
`Cannot force position without a row` error itself; only the guard at
the top of `_forceCluster` does. -/

theorem markGridRow_ne_force {y x1 x2 : Int} {b : Bool} {grid : Grid} :
    markGridRow y x1 x2 b grid ≠ Except.error Err.forceNoRow := by
  unfold markGridRow
  intro hc
  split at hc
  · simp at hc
  · dsimp only at hc
    split at hc
    · simp at hc
    · simp at hc

theorem checkGridRow_ne_force {y x1 x2 : Int} {grid : Grid} :
    checkGridRow y x1 x2 grid ≠ Except.error Err.forceNoRow := by
  unfold checkGridRow
  intro hc
  dsimp only at hc
  repeat' split at hc
  all_goals simp at hc

theorem checkGridRangeGo_ne_force {x1 x2 : Int} {grid : Grid} :
    ∀ (n : Nat) (i : Int), checkGridRangeGo x1 x2 grid i n ≠ Except.error Err.forceNoRow := by
  intro n
  induction n with
  | zero => intro i; simp [checkGridRangeGo]
  | succ n ih =>
    intro i
    rw [checkGridRangeGo]
    split
    · rename_i heq
      intro hc
      injection hc with he
      exact checkGridRow_ne_force (he ▸ heq)
    · simp
    · exact ih (i + 1)

theorem checkGridRange_ne_force {x1 x2 y1 : Int} {y2 : Option Int} {grid : Grid} :
    checkGridRange x1 x2 y1 y2 grid ≠ Except.error Err.forceNoRow :=
  checkGridRangeGo_ne_force _ _

theorem getEntry_ne_force {st : St} {i : Nat} :
    getEntry st i ≠ Except.error Err.forceNoRow := by
  unfold getEntry
  split <;> simp

theorem getEntry_ok_iff {st : St} {i : Nat} {e : Entry} :
    getEntry st i = Except.ok e ↔ st.entries.get? i = some e := by
  unfold getEntry
  cases h : st.entries.get? i <;> simp

theorem relLookup_ne_force {e : Entry} {key : String} :
    relLookup e key ≠ Except.error Err.forceNoRow := by
  unfold relLookup
  split <;> simp

theorem pure_ne_force {α : Type} {a : α} :
    (pure a : Except Err α) ≠ Except.error Err.forceNoRow := by
  simp [pure, Except.pure]

theorem exceptBind_ne_force {α β : Type} {x : Except Err α} {k : α → Except Err β}
    (hx : x ≠ Except.error Err.forceNoRow)
    (hk : ∀ a, k a ≠ Except.error Err.forceNoRow) :
    (x >>= k) ≠ Except.error Err.forceNoRow := by
  cases x <;> simp_all [Bind.bind, Except.bind]

theorem clusterOf_ne_force {st : St} {i : Nat} :
    clusterOf st i ≠ Except.error Err.forceNoRow := by
  unfold clusterOf
  refine exceptBind_ne_force getEntry_ne_force (fun e => ?_)
  split
  · simp
  · exact pure_ne_force

theorem foldE_ne_force {γ σ : Type} {step : σ → γ → Except Err σ}
    (h : ∀ s g, step s g ≠ Except.error Err.forceNoRow) :
    ∀ (l : List γ) (s : σ), foldE step s l ≠ Except.error Err.forceNoRow := by
  intro l
  induction l with
  | nil => intro s; simp [foldE]
  | cons x xs ih =>
    intro s
    rw [foldE]
    split
    · rename_i heq
      intro hc
      exact h s x (heq.trans hc)
    · exact ih _

theorem freeGridRow_ne_force {y x1 x2 : Int} {grid : Grid} :
    freeGridRow y x1 x2 grid ≠ Except.error Err.forceNoRow := markGridRow_ne_force

theorem blockGridRow_ne_force {y x1 x2 : Int} {grid : Grid} :
    blockGridRow y x1 x2 grid ≠ Except.error Err.forceNoRow := markGridRow_ne_force

theorem assignRowFreeOld_ne_force {cfg : Cfg} {e : Entry} {st : St} :
    assignRowFreeOld cfg e st ≠ Except.error Err.forceNoRow := by
  unfold assignRowFreeOld
  split
  · exact exceptBind_ne_force freeGridRow_ne_force (fun g => pure_ne_force)
  · exact pure_ne_force

theorem assignRow_ne_force {cfg : Cfg} {row : Int} {i : Nat} {st : St} :
    assignRow cfg row i st ≠ Except.error Err.forceNoRow := by
  unfold assignRow
  refine exceptBind_ne_force getEntry_ne_force (fun e => ?_)
  refine exceptBind_ne_force assignRowFreeOld_ne_force (fun st2 => ?_)
  refine exceptBind_ne_force getEntry_ne_force (fun e2 => ?_)
  exact exceptBind_ne_force blockGridRow_ne_force (fun g => pure_ne_force)

theorem findBetterRelativePosition_ne_force {cfg : Cfg} {st : St} {j : Nat} :
    findBetterRelativePosition cfg st j ≠ Except.error Err.forceNoRow := by
  unfold findBetterRelativePosition
  refine exceptBind_ne_force getEntry_ne_force (fun entry => ?_)
  split
  · exact pure_ne_force
  · refine exceptBind_ne_force (foldE_ne_force (fun s g => ?_) _ _) (fun preference => ?_)
    · split <;> simp
    · exact checkGridRange_ne_force

theorem adjustCluster_ne_force {cfg : Cfg} {st : St} {i : Nat} :
    adjustCluster cfg st i ≠ Except.error Err.forceNoRow := by
  unfold adjustCluster
  refine exceptBind_ne_force getEntry_ne_force (fun entry => ?_)
  split
  · simp
  · refine foldE_ne_force (fun s g => ?_) _ _
    refine exceptBind_ne_force findBetterRelativePosition_ne_force (fun r => ?_)
    split
    · split
      · exact assignRow_ne_force
      · exact pure_ne_force
    · exact pure_ne_force

theorem bindR_ne_force {α β : Type} {x : Res α} {k : α → Res β}
    (hx : x ≠ some (Except.error Err.forceNoRow))
    (hk : ∀ a, k a ≠ some (Except.error Err.forceNoRow)) :
    bindR x k ≠ some (Except.error Err.forceNoRow) := by
  unfold bindR
  split <;> simp_all

theorem liftE_ne_force {α : Type} {x : Except Err α}
    (hx : x ≠ Except.error Err.forceNoRow) :
    liftE x ≠ some (Except.error Err.forceNoRow) := by
  unfold liftE
  intro hc
  exact hx (Option.some.inj hc)

theorem bindR_liftE_ok {α β : Type} (a : α) (k : α → Res β) :
    bindR (liftE (Except.ok a)) k = k a := rfl

theorem foldR_ne_force {γ σ : Type} {step : σ → γ → Res σ}
    (h : ∀ s g, step s g ≠ some (Except.error Err.forceNoRow)) :
    ∀ (l : List γ) (s : σ), foldR step s l ≠ some (Except.error Err.forceNoRow) := by
  intro l
  induction l with
  | nil => intro s; simp [foldR, okR]
  | cons x xs ih =>
    intro s
    rw [foldR]
    exact bindR_ne_force (h s x) (fun s2 => ih s2)

theorem shiftGridEntries_ne_force {cfg : Cfg} :
    ∀ (fuel : Nat) (st : St) (row x1 x2 : Int),
      shiftGridEntries cfg fuel st row x1 x2 ≠ some (Except.error Err.forceNoRow) := by
  intro fuel
  induction fuel with
  | zero => intro st row x1 x2; simp [shiftGridEntries, divR]
  | succ fuel ih =>
    intro st row x1 x2
    rw [shiftGridEntries]
    refine foldR_ne_force (fun acc j => ?_) _ _
    refine bindR_ne_force (liftE_ne_force getEntry_ne_force) (fun entry => ?_)
    refine bindR_ne_force (liftE_ne_force checkGridRow_ne_force) (fun free => ?_)
    refine bindR_ne_force ?_ (fun res2 => ?_)
    · split
      · simp [okR]
      · exact ih _ _ _ _
    · refine bindR_ne_force (liftE_ne_force getEntry_ne_force) (fun entryNow => ?_)
      refine bindR_ne_force (liftE_ne_force assignRow_ne_force) (fun st2 => ?_)
      simp [okR]

theorem freePosition_ne_force {cfg : Cfg} {fuel : Nat} {st : St} {row : Int} {i : Nat} :
    freePosition cfg fuel st row i ≠ some (Except.error Err.forceNoRow) := by
  unfold freePosition
  refine bindR_ne_force (liftE_ne_force getEntry_ne_force) (fun entry => ?_)
  split
  · simp [okR]
  · refine bindR_ne_force (liftE_ne_force checkGridRow_ne_force) (fun free => ?_)
    split
    · simp [okR]
    · exact shiftGridEntries_ne_force _ _ _ _ _

/-- C8 amended: `_forceCluster` raises `Cannot force position without a
row` exactly when it is called without a row argument on an entry whose
row is FALSY — unset or `0` (the guard is `row === undefined &&
!entry.row`, so an entry pinned at row `0` also trips it); no other
part of forcing raises that error. -/
theorem forceCluster_error_iff (cfg : Cfg) (fuel : Nat) (st : St) (i : Nat)
    (row : Option Int) :
    forceCluster cfg fuel st i row = errR Err.forceNoRow ↔
      (row = none ∧ ∃ e, st.entries.get? i = some e ∧ jsTruthy e.row = false) := by
  unfold forceCluster
  cases hget : getEntry st i with
  | error er =>
    have her : er ≠ Err.forceNoRow := fun hc => getEntry_ne_force (hc ▸ hget)
    constructor
    · intro hc
      have hc2 : (some (Except.error er) : Res (GridCheck × St)) = errR Err.forceNoRow := hc
      exact absurd (Except.error.inj (Option.some.inj hc2)) her
    · rintro ⟨-, e, hsome, -⟩
      have h2 := getEntry_ok_iff.mpr hsome
      rw [hget] at h2
      exact Except.noConfusion h2
  | ok entry =>
    have hmem : st.entries.get? i = some entry := getEntry_ok_iff.mp hget
    simp only [bindR_liftE_ok]
    split
    · rename_i hcond
      simp only [Bool.and_eq_true, Option.isNone_iff_eq_none, Bool.not_eq_true'] at hcond
      simp only [true_iff]
      exact ⟨hcond.1, entry, hmem, hcond.2⟩
    · rename_i hcond
      constructor
      · intro hc
        exfalso
        revert hc
        refine bindR_ne_force (liftE_ne_force relLookup_ne_force) (fun relE => ?_)
        refine bindR_ne_force ?_ (fun st2 => ?_)
        · split
          · refine bindR_ne_force freePosition_ne_force (fun mv => ?_)
            simp [okR]
          · simp [okR]
        · refine bindR_ne_force (liftE_ne_force clusterOf_ne_force) (fun members => ?_)
          refine bindR_ne_force (liftE_ne_force (foldE_ne_force (fun s g =>
            exceptBind_ne_force getEntry_ne_force (fun e =>
              exceptBind_ne_force relLookup_ne_force (fun rel => pure_ne_force))) _ _))
            (fun before => ?_)
          refine bindR_ne_force (foldR_ne_force (fun s j => ?_) _ _) (fun st3 => ?_)
          · refine bindR_ne_force (liftE_ne_force getEntry_ne_force) (fun e => ?_)
            refine bindR_ne_force (liftE_ne_force relLookup_ne_force) (fun rel => ?_)
            refine bindR_ne_force freePosition_ne_force (fun mv => ?_)
            simp [okR]
          · refine bindR_ne_force (liftE_ne_force (foldE_ne_force (fun s g =>
              exceptBind_ne_force getEntry_ne_force (fun e =>
                exceptBind_ne_force relLookup_ne_force (fun rel => pure_ne_force))) _ _))
              (fun after => ?_)
            refine bindR_ne_force (foldR_ne_force (fun s j => ?_) _ _) (fun st4 => ?_)
            · refine bindR_ne_force (liftE_ne_force getEntry_ne_force) (fun e => ?_)
              refine bindR_ne_force (liftE_ne_force relLookup_ne_force) (fun rel => ?_)
              refine bindR_ne_force freePosition_ne_force (fun mv => ?_)
              simp [okR]
            · refine bindR_ne_force (liftE_ne_force adjustCluster_ne_force) (fun st5 => ?_)
              refine bindR_ne_force (liftE_ne_force getEntry_ne_force) (fun entryNow => ?_)
              split <;> simp [okR, errR]
      · rintro ⟨hrow, e, hsome, hfalsy⟩
        exfalso
        rw [hmem] at hsome
        injection hsome with hee
        apply hcond
        subst hrow
        rw [← hee] at hfalsy
        simp [hfalsy]

/-- C8 counterexample: an entry pinned at row `0` — a row IS assigned —
still trips the fatal `Cannot force position without a row` when
`_forceCluster` is called without a row argument, because `!entry.row`
is true at `0`. -/
theorem forceCluster_row_zero_counterexample :
    (forceSt.entries.get? 0).elim false (fun e => e.row == some 0) = true ∧
    forceCluster cfgN 5 forceSt 0 none = errR Err.forceNoRow := by
  refine ⟨by decide, by decide⟩

/-!  Cell-level characterization of the grid operations, for the
no-overlap development. -/

theorem setCell_length {row : List Bool} {i : Int} {v : Bool} :
    (setCell row i v).length = row.length := by
  unfold setCell
  split <;> simp

theorem setCell_get? {row : List Bool} {i : Int} {v : Bool} {c : Nat} :
    (setCell row i v).get? c =
      if 0 ≤ i ∧ i.toNat < row.length ∧ i.toNat = c then some v else row.get? c := by
  unfold setCell
  split
  · rename_i h
    by_cases hc : i.toNat = c
    · subst hc
      rw [if_pos ⟨h.1, h.2, rfl⟩, List.get?_set_eq_of_lt _ h.2]
    · rw [if_neg (fun hh => hc hh.2.2), List.get?_set_ne _ _ hc]
  · rename_i h
    rw [if_neg (fun hh => h ⟨hh.1, hh.2.1⟩)]

theorem setCells_length {v : Bool} : ∀ (n : Nat) (row : List Bool) (x : Int),
    (setCells v row x n).length = row.length := by
  intro n
  induction n with
  | zero => intro row x; rfl
  | succ n ih =>
    intro row x
    rw [setCells, ih, setCell_length]

theorem setCells_get? {v : Bool} : ∀ (n : Nat) (row : List Bool) (x : Int) (c : Nat),
    c < row.length →
    (setCells v row x n).get? c =
      (if x ≤ (c : Int) ∧ (c : Int) < x + n then some v else row.get? c) := by
  intro n
  induction n with
  | zero =>
    intro row x c hc
    rw [setCells, if_neg (by omega)]
  | succ n ih =>
    intro row x c hc
    rw [setCells, ih _ _ _ (by rw [setCell_length]; exact hc), setCell_get?]
    by_cases h1 : x + 1 ≤ (c : Int) ∧ (c : Int) < x + 1 + n
    · rw [if_pos h1, if_pos (by push_cast; omega)]
    · rw [if_neg h1]
      by_cases h2 : 0 ≤ x ∧ x.toNat < row.length ∧ x.toNat = c
      · rw [if_pos h2, if_pos (by push_cast; omega)]
      · rw [if_neg h2]
        by_cases h3 : x ≤ (c : Int) ∧ (c : Int) < x + (n + 1 : Nat)
        · exfalso
          exact h2 ⟨by omega, by omega, by push_cast at h3; omega⟩
        · rw [if_neg h3]

theorem gridSet_length {grid : Grid} {y : Int} {row : List Bool} :
    (gridSet grid y row).length = grid.length := by
  unfold gridSet
  split <;> simp

theorem gridSet_get? {grid : Grid} {y : Int} {row : List Bool} {ρ : Nat} :
    (gridSet grid y row).get? ρ =
      if 0 ≤ y ∧ y.toNat = ρ ∧ ρ < grid.length then some row else grid.get? ρ := by
  unfold gridSet
  split
  · rename_i h
    rw [if_neg (by omega)]
  · rename_i h
    by_cases hc : y.toNat = ρ
    · subst hc
      by_cases hlt : y.toNat < grid.length
      · rw [if_pos ⟨by omega, rfl, hlt⟩, List.get?_set_eq_of_lt _ hlt]
      · rw [if_neg (fun hh => hlt hh.2.2)]
        rw [List.get?_eq_none.mpr (by rw [List.length_set]; omega),
          List.get?_eq_none.mpr (by omega)]
    · rw [if_neg (fun hh => hc hh.2.1), List.get?_set_ne _ _ hc]

theorem gridGet_eq_get? {grid : Grid} {y : Int} (hy : 0 ≤ y) :
    gridGet grid y = grid.get? y.toNat := by
  unfold gridGet
  rw [if_neg (by omega)]

theorem get?_take_lt {α : Type} (l : List α) (n i : Nat) (h : i < n) :
    (l.take n).get? i = l.get? i := by
  induction l generalizing n i with
  | nil => simp
  | cons x xs ih =>
    cases n with
    | zero => omega
    | succ n =>
      cases i with
      | zero => simp
      | succ i => simpa using ih n i (by omega)

theorem allNot_iff (l : List Bool) :
    l.all (fun e => !e) = true ↔ ∀ c : Nat, (l.get? c).getD false = false := by
  induction l with
  | nil => simp
  | cons x xs ih =>
    simp only [List.all_cons, Bool.and_eq_true, ih]
    constructor
    · rintro ⟨hx, hxs⟩ c
      cases c with
      | zero => simpa using hx
      | succ c => simpa using hxs c
    · intro h
      exact ⟨by simpa using h 0, fun c => by simpa using h (c + 1)⟩

theorem all_not_drop_take (row : List Bool) (a b : Nat) :
    (((row.drop a).take b).all (fun e => !e) = true) ↔
    ∀ c : Nat, a ≤ c → c < a + b → (row.get? c).getD false = false := by
  rw [allNot_iff]
  constructor
  · intro h c hac hcb
    by_cases hcl : c < row.length
    · have h' := h (c - a)
      rw [get?_take_lt _ _ _ (by omega), List.get?_drop] at h'
      have he : a + (c - a) = c := by omega
      rw [he] at h'
      exact h'
    · rw [List.get?_eq_none.mpr (by omega)]
      rfl
  · intro h i
    by_cases hib : i < b
    · rw [get?_take_lt _ _ _ hib, List.get?_drop]
      exact h (a + i) (by omega) (by omega)
    · rw [List.get?_eq_none.mpr (by rw [List.length_take]; omega)]
      rfl

theorem headD_length {grid : Grid} {L : Nat} (hwf : ∀ r ∈ grid, r.length = L)
    (hne : 0 < grid.length) : (grid.headD []).length = L := by
  cases grid with
  | nil => simp at hne
  | cons a t => exact hwf a (by simp)

/-- Characterization of a successful `_markGridRow`: on a well-formed
grid with in-range coordinates it succeeds, preserves shape, and sets
exactly the core plus the in-range buffer cells of row `y`. -/
theorem markGridRow_ok_char {grid : Grid} {L : Nat} {y x1 x2 : Int} {state : Bool}
    (hwf : ∀ r ∈ grid, r.length = L)
    (hy : 0 ≤ y) (hylt : y.toNat < grid.length)
    (hb1 : x1 ≤ (L : Int) - 1) (hb2 : x2 ≤ (L : Int) - 1) :
    ∃ g', markGridRow y x1 x2 state grid = Except.ok g' ∧
      g'.length = grid.length ∧ (∀ r ∈ g', r.length = L) ∧
      ∀ ρ c : Nat, ρ < grid.length → c < L →
        cellAt g' ρ c =
          if ρ = y.toNat ∧
              ((x1 ≤ (c : Int) ∧ (c : Int) < x1 + ((x2 - x1).toNat : Int)) ∨
               (0 < x1 ∧ (c : Int) = x1 - 1) ∨
               (0 ≤ x2 ∧ x2 < (L : Int) ∧ (c : Int) = x2))
            then state else cellAt grid ρ c := by
  cases hg : grid.get? y.toNat with
  | none =>
    rw [List.get?_eq_none] at hg
    omega
  | some row =>
    have hrl : row.length = L := hwf row (List.get?_mem hg)
    have hhead : (grid.headD []).length = L := headD_length hwf (by omega)
    have hfin :
        ∀ c : Nat, c < L →
          ((let r1 := setCells state row x1 (x2 - x1).toNat
            let r2 := if x1 > 0 then setCell r1 (x1 - 1) state else r1
            if x2 < (r2.length : Int) then setCell r2 x2 state else r2).get? c) =
          (if (x1 ≤ (c : Int) ∧ (c : Int) < x1 + ((x2 - x1).toNat : Int)) ∨
               (0 < x1 ∧ (c : Int) = x1 - 1) ∨
               (0 ≤ x2 ∧ x2 < (L : Int) ∧ (c : Int) = x2)
            then some state else row.get? c) := by
      intro c hc
      have hl1 : (setCells state row x1 (x2 - x1).toNat).length = L := by
        rw [setCells_length, hrl]
      have hl2 :
          (if x1 > 0 then setCell (setCells state row x1 (x2 - x1).toNat) (x1 - 1) state
            else setCells state row x1 (x2 - x1).toNat).length = L := by
        split
        · rw [setCell_length, hl1]
        · exact hl1
      dsimp only
      rw [hl2]
      by_cases hbuf2 : x2 < (L : Int)
      · rw [if_pos hbuf2, setCell_get?, hl2]
        by_cases hx1pos : x1 > 0
        · rw [if_pos hx1pos, setCell_get?, hl1,
            setCells_get? _ _ _ _ (by rw [hrl]; exact hc)]
          split_ifs <;> first | rfl | (exfalso; omega)
        · rw [if_neg hx1pos, setCells_get? _ _ _ _ (by rw [hrl]; exact hc)]
          split_ifs <;> first | rfl | (exfalso; omega)
      · rw [if_neg hbuf2]
        by_cases hx1pos : x1 > 0
        · rw [if_pos hx1pos, setCell_get?, hl1,
            setCells_get? _ _ _ _ (by rw [hrl]; exact hc)]
          split_ifs <;> first | rfl | (exfalso; omega)
        · rw [if_neg hx1pos, setCells_get? _ _ _ _ (by rw [hrl]; exact hc)]
          split_ifs <;> first | rfl | (exfalso; omega)
    refine ⟨gridSet grid y
        (let r1 := setCells state row x1 (x2 - x1).toNat
         let r2 := if x1 > 0 then setCell r1 (x1 - 1) state else r1
         if x2 < (r2.length : Int) then setCell r2 x2 state else r2), ?_, ?_, ?_, ?_⟩
    · unfold markGridRow
      rw [gridGet_eq_get? hy, hg]
      dsimp only
      rw [if_neg (by rw [hhead]; omega)]
    · exact gridSet_length
    · intro r hr
      obtain ⟨n, hn⟩ := List.get?_of_mem hr
      rw [gridSet_get?] at hn
      by_cases hcond : 0 ≤ y ∧ y.toNat = n ∧ n < grid.length
      · rw [if_pos hcond] at hn
        injection hn with hn
        rw [← hn]
        simp only [apply_ite List.length, setCell_length, setCells_length, hrl, ite_self]
      · rw [if_neg hcond] at hn
        exact hwf r (List.get?_mem hn)
    · intro ρ c hρ hc
      unfold cellAt
      rw [gridSet_get?]
      by_cases hcond : 0 ≤ y ∧ y.toNat = ρ ∧ ρ < grid.length
      · rw [if_pos hcond]
        rw [Option.getD_some]
        rw [hfin c hc]
        rw [← hcond.2.1, hg]
        split_ifs with h1 h2 h2 <;> first | rfl | (exfalso; omega)
      · rw [if_neg hcond]
        have hne : ¬(ρ = y.toNat ∧
            ((x1 ≤ (c : Int) ∧ (c : Int) < x1 + ((x2 - x1).toNat : Int)) ∨
             (0 < x1 ∧ (c : Int) = x1 - 1) ∨
             (0 ≤ x2 ∧ x2 < (L : Int) ∧ (c : Int) = x2))) :=
          fun hh => hcond ⟨hy, hh.1.symm, hρ⟩
        rw [if_neg hne]

/-- Characterization of a successful `_checkGridRow`: on a well-formed
grid with in-range coordinates it succeeds, and answers `true` exactly
when every cell of the tested span (after the degenerate-span widening)
is free. -/
theorem checkGridRow_ok_char {grid : Grid} {L : Nat} {y x1 x2 : Int}
    (hwf : ∀ r ∈ grid, r.length = L)
    (hy : 0 ≤ y) (hylt : y.toNat < grid.length)
    (hx1 : 0 ≤ x1)
    (hX2 : (if x1 = x2 then x1 + 1 else x2) ≤ (L : Int) - 1) :
    ∃ b, checkGridRow y x1 x2 grid = Except.ok b ∧
      (b = true ↔ ∀ c : Nat, x1 ≤ (c : Int) →
        (c : Int) < (if x1 = x2 then x1 + 1 else x2) →
        cellAt grid y.toNat c = false) := by
  cases hg : grid.get? y.toNat with
  | none =>
    rw [List.get?_eq_none] at hg
    omega
  | some row =>
    have hrl : row.length = L := hwf row (List.get?_mem hg)
    have hcell : ∀ c : Nat, cellAt grid y.toNat c = (row.get? c).getD false := by
      intro c
      unfold cellAt
      rw [hg, Option.getD_some]
    unfold checkGridRow
    rw [gridGet_eq_get? hy, hg]
    dsimp only
    set X2 := if x1 = x2 then x1 + 1 else x2 with hX2def
    rw [if_neg (by rw [hrl]; omega)]
    refine ⟨_, rfl, ?_⟩
    rw [all_not_drop_take]
    constructor
    · intro h c h1 h2
      rw [hcell]
      exact h c (by omega) (by omega)
    · intro h c h1 h2
      have h' := h c (by omega) (by omega)
      rw [hcell] at h'
      exact h'

theorem getD_false_of_all_false {l : List Bool} (h : ∀ x ∈ l, x = false) (c : Nat) :
    (l.get? c).getD false = false := by
  cases hg : l.get? c with
  | none => rfl
  | some b =>
    rw [Option.getD_some]
    exact h b (List.get?_mem hg)

theorem cellAt_addGridRow_lt {cfg : Cfg} {grid : Grid} {ρ c : Nat}
    (h : ρ < grid.length) :
    cellAt (addGridRow cfg grid) ρ c = cellAt grid ρ c := by
  unfold cellAt addGridRow
  rw [List.get?_append h]

theorem cellAt_addGridRow_ge {cfg : Cfg} {grid : Grid} {ρ c : Nat}
    (h : grid.length ≤ ρ) :
    cellAt (addGridRow cfg grid) ρ c = false := by
  unfold cellAt
  cases hg : (addGridRow cfg grid).get? ρ with
  | none => rfl
  | some r =>
    rw [Option.getD_some]
    have hr : r = newRow cfg := by
      unfold addGridRow at hg
      rw [List.get?_append_right h] at hg
      cases hd : ρ - grid.length with
      | zero =>
        rw [hd] at hg
        simp at hg
        exact hg.symm
      | succ k =>
        rw [hd] at hg
        simp at hg
    subst hr
    exact getD_false_of_all_false
      (fun x hx => List.eq_of_mem_replicate hx) c

theorem addGridRow_length {cfg : Cfg} {grid : Grid} :
    (addGridRow cfg grid).length = grid.length + 1 := by
  unfold addGridRow
  simp

theorem addGridRow_wf {cfg : Cfg} {grid : Grid}
    (hwf : ∀ r ∈ grid, r.length = cfg.xLength.toNat) :
    ∀ r ∈ addGridRow cfg grid, r.length = cfg.xLength.toNat := by
  intro r hr
  rcases List.mem_append.mp hr with hm | hm
  · exact hwf r hm
  · simp at hm
    subst hm
    simp [newRow]

/-- The row scan of `_checkGridRange` over rows `[i, i+n)` of a
well-formed grid: it never throws, and any row it returns is in range
and free on the whole tested span. -/
theorem checkGridRangeGo_ok_char {grid : Grid} {L : Nat} {x1 x2 : Int}
    (hwf : ∀ r ∈ grid, r.length = L) (hx1 : 0 ≤ x1)
    (hX2 : (if x1 = x2 then x1 + 1 else x2) ≤ (L : Int) - 1) :
    ∀ (n : Nat) (i : Int), 0 ≤ i → i.toNat + n ≤ grid.length →
    ∃ r?, checkGridRangeGo x1 x2 grid i n = Except.ok r? ∧
      ∀ r, r? = some r → 0 ≤ r ∧ r.toNat < grid.length ∧
        ∀ c : Nat, x1 ≤ (c : Int) →
          (c : Int) < (if x1 = x2 then x1 + 1 else x2) →
          cellAt grid r.toNat c = false := by
  intro n
  induction n with
  | zero =>
    intro i hi hb
    exact ⟨none, rfl, fun r hr => Option.noConfusion hr⟩
  | succ n ih =>
    intro i hi hb
    obtain ⟨b, hbrow, hbiff⟩ := checkGridRow_ok_char hwf hi (by omega) hx1 hX2
    rw [checkGridRangeGo, hbrow]
    cases b with
    | true =>
      refine ⟨some i, rfl, fun r hr => ?_⟩
      injection hr with hr
      subst hr
      exact ⟨hi, by omega, hbiff.mp rfl⟩
    | false =>
      obtain ⟨r?, hr?, hprop⟩ := ih (i + 1) (by omega) (by omega)
      exact ⟨r?, hr?, hprop⟩

/-- `_checkGridRange` over the whole grid (the `_getAnyRow` call):
never throws, returned rows are valid and free. -/
theorem checkGridRange_zero_none_char {grid : Grid} {L : Nat} {x1 x2 : Int}
    (hwf : ∀ r ∈ grid, r.length = L) (hx1 : 0 ≤ x1)
    (hX2 : (if x1 = x2 then x1 + 1 else x2) ≤ (L : Int) - 1) :
    ∃ r?, checkGridRange x1 x2 0 none grid = Except.ok r? ∧
      ∀ r, r? = some r → 0 ≤ r ∧ r.toNat < grid.length ∧
        ∀ c : Nat, x1 ≤ (c : Int) →
          (c : Int) < (if x1 = x2 then x1 + 1 else x2) →
          cellAt grid r.toNat c = false := by
  obtain ⟨r?, h1, h2⟩ := checkGridRangeGo_ok_char hwf hx1 hX2 grid.length 0 le_rfl (by omega)
  refine ⟨r?, ?_, h2⟩
  unfold checkGridRange
  dsimp only [Option.getD]
  have hn : ((((grid.length : Int) - 1)) - 0 + 1).toNat = grid.length := by omega
  rw [hn]
  exact h1

/-- `_getAnyRow`: on a well-formed grid it always succeeds with a valid
row whose tested span is entirely free; the grid keeps its old cells,
any appended row being all-free. -/
theorem getAnyRowOn_ok_char {cfg : Cfg} {grid : Grid} {start stop : Int}
    (hwf : ∀ r ∈ grid, r.length = cfg.xLength.toNat)
    (hx1 : 0 ≤ yearToGrid cfg start)
    (hX2 : (if yearToGrid cfg start = yearToGrid cfg stop then yearToGrid cfg start + 1
            else yearToGrid cfg stop) ≤ ((cfg.xLength.toNat : Int)) - 1) :
    ∃ r g', getAnyRowOn cfg grid start stop = Except.ok (r, g') ∧
      0 ≤ r ∧ r.toNat < g'.length ∧ grid.length ≤ g'.length ∧
      (∀ row ∈ g', row.length = cfg.xLength.toNat) ∧
      (∀ ρ c : Nat, ρ < grid.length → cellAt g' ρ c = cellAt grid ρ c) ∧
      (∀ ρ c : Nat, grid.length ≤ ρ → cellAt g' ρ c = false) ∧
      (∀ c : Nat, yearToGrid cfg start ≤ (c : Int) →
        (c : Int) < (if yearToGrid cfg start = yearToGrid cfg stop
                     then yearToGrid cfg start + 1 else yearToGrid cfg stop) →
        cellAt g' r.toNat c = false) := by
  obtain ⟨r?, h1, h2⟩ := checkGridRange_zero_none_char hwf hx1 hX2
  cases r? with
  | some r =>
    obtain ⟨hr0, hrlt, hfree⟩ := h2 r rfl
    refine ⟨r, grid, ?_, hr0, hrlt, le_rfl, hwf, fun _ _ _ => rfl, ?_, hfree⟩
    · unfold getAnyRowOn
      rw [h1]
      rfl
    · intro ρ c hρ
      unfold cellAt
      rw [show grid.get? ρ = none from List.get?_eq_none.mpr hρ]
      rfl
  | none =>
    have hlen : (addGridRow cfg grid).length = grid.length + 1 := addGridRow_length
    have hrt : ((((addGridRow cfg grid).length : Int)) - 1).toNat = grid.length := by
      rw [hlen]
      omega
    refine ⟨(((addGridRow cfg grid).length : Int)) - 1, addGridRow cfg grid, ?_,
      by rw [hlen]; omega, by rw [hrt, hlen]; omega, by rw [hlen]; omega,
      addGridRow_wf hwf, fun ρ c hρ => cellAt_addGridRow_lt hρ,
      ?_, ?_⟩
    · unfold getAnyRowOn
      rw [h1]
      rfl
    · intro ρ c hρ
      by_cases hρ2 : ρ < (addGridRow cfg grid).length
      · exact cellAt_addGridRow_ge hρ
      · unfold cellAt
        rw [show (addGridRow cfg grid).get? ρ = none from List.get?_eq_none.mpr (by omega)]
        rfl
    · intro c hc1 hc2
      rw [hrt]
      exact cellAt_addGridRow_ge le_rfl

theorem spansDisjoint_symm {e f : Entry} (h : spansDisjoint e f) : spansDisjoint f e := by
  unfold spansDisjoint at *
  omega

/-- If `ei`'s tested span is all free on a grid row and `ej`'s marks
are all occupied on the same row, the two spans are separated by at
least one year-unit. -/
theorem tested_free_marks_disjoint {cfg : Cfg} {g : Grid} {ρ : Nat} {ei ej : Entry}
    (hfree : ∀ c : Nat, yearToGrid cfg ei.start ≤ (c : Int) →
      (c : Int) < (if yearToGrid cfg ei.start = yearToGrid cfg ei.stop
                   then yearToGrid cfg ei.start + 1 else yearToGrid cfg ei.stop) →
      cellAt g ρ c = false)
    (hmarks : ∀ c : Nat, inMarks cfg ej c → cellAt g ρ c = true)
    (hbi1 : cfg.yearStart ≤ ei.start) (hbi2 : ei.start ≤ ei.stop)
    (hbj1 : cfg.yearStart ≤ ej.start) (hbj2 : ej.start ≤ ej.stop) :
    spansDisjoint ei ej := by
  simp only [yearToGrid] at hfree
  simp only [inMarks, yearToGrid] at hmarks
  unfold spansDisjoint
  by_cases hdeg : ei.start - cfg.yearStart = ei.stop - cfg.yearStart
  · simp only [if_pos hdeg] at hfree
    have h1 : cellAt g ρ (ei.start - cfg.yearStart).toNat = false :=
      hfree _ (by omega) (by omega)
    have h2 : ¬((ej.start - cfg.yearStart - 1 ≤ (((ei.start - cfg.yearStart).toNat : Int))) ∧
        ((((ei.start - cfg.yearStart).toNat : Int)) ≤ ej.stop - cfg.yearStart)) := by
      intro hin
      rw [hmarks _ hin] at h1
      exact Bool.noConfusion h1
    by_cases hc : ei.start - cfg.yearStart > ej.stop - cfg.yearStart
    · right
      omega
    · left
      have h3 : cellAt g ρ (ej.start - cfg.yearStart - 1).toNat = true :=
        hmarks _ ⟨by omega, by omega⟩
      by_cases hw : (((ej.start - cfg.yearStart - 1).toNat : Int)) <
          ei.start - cfg.yearStart + 1
      · rw [hfree _ (by omega) hw] at h3
        exact Bool.noConfusion h3
      · omega
  · simp only [if_neg hdeg] at hfree
    have h1 : cellAt g ρ (ei.start - cfg.yearStart).toNat = false :=
      hfree _ (by omega) (by omega)
    have h2 : ¬((ej.start - cfg.yearStart - 1 ≤ (((ei.start - cfg.yearStart).toNat : Int))) ∧
        ((((ei.start - cfg.yearStart).toNat : Int)) ≤ ej.stop - cfg.yearStart)) := by
      intro hin
      rw [hmarks _ hin] at h1
      exact Bool.noConfusion h1
    by_cases hc : ei.start - cfg.yearStart > ej.stop - cfg.yearStart
    · right
      omega
    · left
      have h3 : cellAt g ρ (ej.start - cfg.yearStart - 1).toNat = true :=
        hmarks _ ⟨by omega, by omega⟩
      by_cases hw : (((ej.start - cfg.yearStart - 1).toNat : Int)) <
          ei.stop - cfg.yearStart
      · rw [hfree _ (by omega) hw] at h3
        exact Bool.noConfusion h3
      · omega

theorem exceptBind_ok {α β : Type} (a : α) (k : α → Except Err β) :
    (Bind.bind (Except.ok a) k : Except Err β) = k a := rfl

/-- One step of the leftover pass (`_getAnyRow` followed by
`_assignRow`) on a still-unplaced entry: it succeeds, gives the entry a
row, touches no other entry, and preserves the occupancy invariant. -/
theorem leftoverStep_char {cfg : Cfg} {st : St} {i : Nat} {e : Entry}
    (hget : st.entries.get? i = some e) (herow : e.row = none)
    (hinv : PlacedInv cfg st) :
    ∃ (r : Int) (g2 : Grid),
      (do
        let e ← getEntry st i
        let rg ← getAnyRowOn cfg st.grid e.start e.stop
        assignRow cfg rg.1 i { st with grid := rg.2 }) =
        Except.ok { st with
          entries := st.entries.set i { e with row := some r }
          grid := g2 } ∧
      st.grid.length ≤ g2.length ∧
      PlacedInv cfg { st with
        entries := st.entries.set i { e with row := some r }
        grid := g2 } := by
  obtain ⟨hwf, hyears, hmarksI, hpair⟩ := hinv
  have hlt : i < st.entries.length := lt_length_of_get?_eq_some hget
  have hmem : e ∈ st.entries := List.get?_mem hget
  obtain ⟨hy1, hy2, hy3, hy4⟩ := hyears e hmem
  have hx1 : 0 ≤ yearToGrid cfg e.start := by
    unfold yearToGrid
    omega
  have hX2 : (if yearToGrid cfg e.start = yearToGrid cfg e.stop
      then yearToGrid cfg e.start + 1 else yearToGrid cfg e.stop) ≤
      ((cfg.xLength.toNat : Int)) - 1 := by
    unfold yearToGrid Cfg.xLength at *
    split <;> omega
  obtain ⟨r, g', hgar, hr0, hrlt, hglen, hwf', hpres, hnew, hfree⟩ :=
    getAnyRowOn_ok_char hwf hx1 hX2
  have hb1 : yearToGrid cfg e.start ≤ ((cfg.xLength.toNat : Int)) - 1 := by
    unfold yearToGrid Cfg.xLength at *
    omega
  have hb2 : yearToGrid cfg e.stop ≤ ((cfg.xLength.toNat : Int)) - 1 := by
    unfold yearToGrid Cfg.xLength at *
    omega
  obtain ⟨g2, hmark, hlen2, hwf2, hcell2⟩ :=
    @markGridRow_ok_char g' cfg.xLength.toNat r (yearToGrid cfg e.start)
      (yearToGrid cfg e.stop) true hwf' hr0 hrlt hb1 hb2
  have hge : getEntry st i = Except.ok e := getEntry_ok_iff.mpr hget
  have hge2 : getEntry { st with grid := g' } i = Except.ok e := getEntry_ok_iff.mpr hget
  have hfo : assignRowFreeOld cfg e { st with grid := g' } =
      Except.ok { st with grid := g' } := by
    unfold assignRowFreeOld
    rw [herow]
    rfl
  have hupd : updEntry { st with grid := g' } i (fun e => { e with row := some r }) =
      { st with
        entries := st.entries.set i { e with row := some r }
        grid := g' } := by
    unfold updEntry setEntry
    dsimp only
    rw [hget]
  have hge3 : getEntry { st with
      entries := st.entries.set i { e with row := some r }
      grid := g' } i = Except.ok { e with row := some r } :=
    getEntry_ok_iff.mpr (by dsimp only; rw [List.get?_set_eq_of_lt _ hlt])
  have hblock : blockGridRow r (yearToGrid cfg e.start) (yearToGrid cfg e.stop) g' =
      Except.ok g2 := hmark
  refine ⟨r, g2, ?_, ?_, ?_, ?_, ?_, ?_⟩
  · simp only [hge, exceptBind_ok, hgar]
    unfold assignRow
    simp only [hge2, exceptBind_ok, hfo, hupd, hge3, hblock]
    rfl
  · omega
  · exact hwf2
  · -- year bounds on the updated entries
    intro f hf
    obtain ⟨k, hk⟩ := List.get?_of_mem hf
    dsimp only at hk
    by_cases hki : k = i
    · subst hki
      rw [List.get?_set_eq_of_lt _ hlt] at hk
      injection hk with hk
      subst hk
      exact ⟨hy1, hy2, hy3, hy4⟩
    · rw [List.get?_set_ne _ _ (fun hh => hki hh.symm)] at hk
      exact hyears f (List.get?_mem hk)
  · -- marks of every placed entry show as occupied cells
    intro k ent ρ hkent hρ
    dsimp only at hkent
    by_cases hki : k = i
    · subst hki
      rw [List.get?_set_eq_of_lt _ hlt] at hkent
      injection hkent with hkent
      subst hkent
      have hrρ : r = ρ := by
        have h' :  some r = some ρ := hρ
        injection h'
      subst hrρ
      refine ⟨hr0, by dsimp only; omega, ?_⟩
      intro c hc
      have hc' : yearToGrid cfg e.start - 1 ≤ (c : Int) ∧
          (c : Int) ≤ yearToGrid cfg e.stop := hc
      have hcL : c < cfg.xLength.toNat := by
        unfold yearToGrid at hc'
        unfold Cfg.xLength
        omega
      rw [hcell2 r.toNat c hrlt hcL, if_pos]
      refine ⟨rfl, ?_⟩
      unfold yearToGrid at hc' ⊢
      unfold Cfg.xLength
      omega
    · rw [List.get?_set_ne _ _ (fun hh => hki hh.symm)] at hkent
      obtain ⟨hρ0, hρlt, hρmk⟩ := hmarksI k ent ρ hkent hρ
      refine ⟨hρ0, by dsimp only; omega, ?_⟩
      intro c hc
      have hcL : c < cfg.xLength.toNat := by
        obtain ⟨hz1, hz2, hz3, hz4⟩ := hyears ent (List.get?_mem hkent)
        have hcb := hc
        unfold inMarks yearToGrid at hcb
        unfold Cfg.xLength at *
        omega
      rw [hcell2 ρ.toNat c (by omega) hcL]
      split
      · rfl
      · rw [hpres ρ.toNat c hρlt]
        exact hρmk c hc
  · -- pairwise separation
    intro k l a b ra rb hkl hka hlb hra hrb hrarb
    dsimp only at hka hlb
    by_cases hki : k = i <;> by_cases hli : l = i
    · exact absurd (hki.trans hli.symm) hkl
    · subst hki
      rw [List.get?_set_eq_of_lt _ hlt] at hka
      injection hka with hka
      rw [List.get?_set_ne _ _ (fun hh => hli hh.symm)] at hlb
      obtain ⟨hz1, hz2, hz3, hz4⟩ := hyears b (List.get?_mem hlb)
      obtain ⟨hb0, hblt, hbmk⟩ := hmarksI l b rb hlb hrb
      have hrar : ra = r := by
        have h' : some r = some ra := by rw [← hra, ← hka]
        injection h' with h'
        exact h'.symm
      have hrbt : rb.toNat = r.toNat := by
        rw [show rb = r from by omega]
      subst hka
      have hdisj : spansDisjoint { e with row := some r } b :=
        tested_free_marks_disjoint hfree (fun c hc => by
          rw [← hrbt, hpres rb.toNat c hblt]
          exact hbmk c hc) hy1 hy2 hz1 hz2
      exact hdisj
    · subst hli
      rw [List.get?_set_eq_of_lt _ hlt] at hlb
      injection hlb with hlb
      rw [List.get?_set_ne _ _ (fun hh => hki hh.symm)] at hka
      obtain ⟨hz1, hz2, hz3, hz4⟩ := hyears a (List.get?_mem hka)
      obtain ⟨ha0, halt, hamk⟩ := hmarksI k a ra hka hra
      have hrbr : rb = r := by
        have h' : some r = some rb := by rw [← hrb, ← hlb]
        injection h' with h'
        exact h'.symm
      have hrat : ra.toNat = r.toNat := by
        rw [show ra = r from by omega]
      subst hlb
      have hdisj : spansDisjoint { e with row := some r } a :=
        tested_free_marks_disjoint hfree (fun c hc => by
          rw [← hrat, hpres ra.toNat c halt]
          exact hamk c hc) hy1 hy2 hz1 hz2
      exact spansDisjoint_symm hdisj
    · rw [List.get?_set_ne _ _ (fun hh => hki hh.symm)] at hka
      rw [List.get?_set_ne _ _ (fun hh => hli hh.symm)] at hlb
      exact hpair k l a b ra rb hkl hka hlb hra hrb hrarb

/-- The leftover-placement fold over a duplicate-free list of
still-unplaced entry indices: it succeeds, preserves the occupancy
invariant, assigns a row to every listed entry and touches no other. -/
theorem leftoverFold_char {cfg : Cfg} : ∀ (idxs : List Nat) (st : St),
    idxs.Nodup →
    (∀ i ∈ idxs, ∃ e, st.entries.get? i = some e ∧ e.row = none) →
    PlacedInv cfg st →
    ∃ st', foldE (fun st i => do
        let e ← getEntry st i
        let rg ← getAnyRowOn cfg st.grid e.start e.stop
        assignRow cfg rg.1 i { st with grid := rg.2 }) st idxs = Except.ok st' ∧
      PlacedInv cfg st' ∧
      st'.entries.length = st.entries.length ∧
      (∀ j, j ∉ idxs → st'.entries.get? j = st.entries.get? j) ∧
      (∀ i ∈ idxs, ∃ e r, st.entries.get? i = some e ∧
        st'.entries.get? i = some { e with row := some r }) := by
  intro idxs
  induction idxs with
  | nil =>
    intro st _ _ hinv
    exact ⟨st, rfl, hinv, rfl, fun _ _ => rfl, fun i hi => absurd hi (List.not_mem_nil i)⟩
  | cons i rest ih =>
    intro st hnd hall hinv
    obtain ⟨e, hget, herow⟩ := hall i (List.mem_cons_self i rest)
    obtain ⟨r, g2, hstep, hgrow, hinv1⟩ := leftoverStep_char hget herow hinv
    have hlt : i < st.entries.length := lt_length_of_get?_eq_some hget
    have hndr : rest.Nodup := (List.nodup_cons.mp hnd).2
    have hni : i ∉ rest := (List.nodup_cons.mp hnd).1
    obtain ⟨st', hfold, hinv', hlen', huntouched, hassigned⟩ :=
      ih { st with
        entries := st.entries.set i { e with row := some r }
        grid := g2 } hndr
        (by
          intro j hj
          obtain ⟨f, hf, hfrow⟩ := hall j (List.mem_cons_of_mem i hj)
          refine ⟨f, ?_, hfrow⟩
          dsimp only
          rw [List.get?_set_ne _ _ (fun hh => (by subst hh; exact hni hj : False))]
          exact hf)
        hinv1
    refine ⟨st', ?_, hinv', ?_, ?_, ?_⟩
    · rw [foldE, hstep]
      exact hfold
    · rw [hlen']
      dsimp only
      exact List.length_set st.entries i _
    · intro j hj
      have hji : j ≠ i := fun hh => hj (hh ▸ List.mem_cons_self i rest)
      have hjr : j ∉ rest := fun hh => hj (List.mem_cons_of_mem i hh)
      rw [huntouched j hjr]
      dsimp only
      exact List.get?_set_ne _ _ (fun hh => hji hh.symm)
    · intro j hj
      rcases List.mem_cons.mp hj with hji | hjr
      · subst hji
        refine ⟨e, r, hget, ?_⟩
        rw [huntouched j hni]
        dsimp only
        exact List.get?_set_eq_of_lt _ hlt
      · obtain ⟨f, rf, hf1, hf2⟩ := hassigned j hjr
        have hji : j ≠ i := fun hh => hni (hh ▸ hjr)
        refine ⟨f, rf, ?_, hf2⟩
        have := hf1
        dsimp only at this
        rw [List.get?_set_ne _ _ (fun hh => hji hh.symm)] at this
        exact this

theorem foldE_nil {γ σ : Type} (f : σ → γ → Except Err σ) (s : σ) :
    foldE f s [] = Except.ok s := rfl

theorem findIdx?_none_of_false {α : Type} (p : α → Bool) :
    ∀ (l : List α) (n : Nat), (∀ x ∈ l, p x = false) → List.findIdx? p l n = none := by
  intro l
  induction l with
  | nil => intro n _; rfl
  | cons x xs ih =>
    intro n h
    rw [List.findIdx?_cons, h x (List.mem_cons_self x xs),
      if_neg Bool.false_ne_true]
    exact ih (n + 1) (fun y hy => h y (List.mem_cons_of_mem x hy))

/-- `_readEntries` on a relationship-free model is the identity: no
become chains to collapse, no ids to re-point, every cluster is the
singleton and stays unattached. -/
theorem readEntries_norel {fuel : Nat} {entries : List Entry}
    (hrel : relationFree entries) : readEntries fuel entries = okR entries := by
  have hb : entries.filter (fun e => jsTruthyS e.become) = [] :=
    List.filter_eq_nil.mpr (fun e he => by
      rw [(hrel e he).1]
      exact fun hh => Bool.noConfusion hh)
  have hcb : collapseBecome fuel entries = okR entries := by
    unfold collapseBecome
    rw [hb]
    rfl
  have hm : (List.range entries.length).filter
      (fun j => (entries.get? j).elim false (fun e => jsTruthyS e.merge)) = [] :=
    List.filter_eq_nil.mpr (fun j _ => by
      cases h : entries.get? j with
      | none => exact fun hh => Bool.noConfusion hh
      | some e =>
        rw [show ((some e).elim false (fun e => jsTruthyS e.merge)) = jsTruthyS e.merge
          from rfl, (hrel e (List.get?_mem h)).2.1]
        exact fun hh => Bool.noConfusion hh)
  have hs : (List.range entries.length).filter
      (fun j => (entries.get? j).elim false (fun e => jsTruthyS e.split)) = [] :=
    List.filter_eq_nil.mpr (fun j _ => by
      cases h : entries.get? j with
      | none => exact fun hh => Bool.noConfusion hh
      | some e =>
        rw [show ((some e).elim false (fun e => jsTruthyS e.split)) = jsTruthyS e.split
          from rfl, (hrel e (List.get?_mem h)).2.2.1]
        exact fun hh => Bool.noConfusion hh)
  have hrb : removeBadIdsPhase entries = Except.ok entries := by
    unfold removeBadIdsPhase
    rw [hm, hs]
    rfl
  have hac : attachClusters entries = entries := by
    apply List.ext
    intro n
    unfold attachClusters
    rw [List.get?_map, List.get?_enum]
    cases h : entries.get? n with
    | none => rfl
    | some e =>
      have hone : getClusterIdx entries n = [n] := by
        unfold getClusterIdx
        rw [h]
        have h1 : (List.range entries.length).filter
            (fun j => (entries.get? j).elim false (fun x => x.split == some e.id)) = [] :=
          List.filter_eq_nil.mpr (fun j _ => by
            cases hx : entries.get? j with
            | none => exact fun hh => Bool.noConfusion hh
            | some x =>
              rw [show ((some x).elim false (fun x => x.split == some e.id)) =
                (x.split == some e.id) from rfl, (hrel x (List.get?_mem hx)).2.2.1]
              exact fun hh => Bool.noConfusion hh)
        have h2 : (List.range entries.length).filter
            (fun j => (entries.get? j).elim false (fun m =>
              m.merge == some e.id && !(e.split == some m.id) && !(m.stop == e.start))) = [] :=
          List.filter_eq_nil.mpr (fun j _ => by
            cases hx : entries.get? j with
            | none => exact fun hh => Bool.noConfusion hh
            | some x =>
              rw [show ((some x).elim false (fun m =>
                  m.merge == some e.id && !(e.split == some m.id) && !(m.stop == e.start))) =
                (x.merge == some e.id && !(e.split == some x.id) && !(x.stop == e.start))
                from rfl, (hrel x (List.get?_mem hx)).2.1]
              exact fun hh => Bool.noConfusion hh)
        have h3 : (List.range entries.length).filter
            (fun j => (entries.get? j).elim false (fun x =>
              some x.id == e.merge && x.start == e.stop)) = [] :=
          List.filter_eq_nil.mpr (fun j _ => by
            cases hx : entries.get? j with
            | none => exact fun hh => Bool.noConfusion hh
            | some x =>
              rw [show ((some x).elim false (fun x =>
                  some x.id == e.merge && x.start == e.stop)) =
                (some x.id == e.merge && x.start == e.stop) from rfl,
                (hrel e (List.get?_mem h)).2.1]
              exact fun hh => Bool.noConfusion hh)
        dsimp only
        rw [h1, h2, h3]
        simp
      dsimp only [Option.map]
      rw [hone]
      simp
  unfold readEntries
  rw [hcb, bindR_okR, hrb, bindR_liftE_ok, hac]

/-- `_createGrid` on a relationship-free model: no pre-set rows, so the
grid is the single fresh row. -/
theorem createGrid_norel {cfg : Cfg} {entries : List Entry}
    (hrel : relationFree entries) : createGrid cfg entries = Except.ok [newRow cfg] := by
  have hf : entries.filter (fun e => jsTruthy e.row) = [] :=
    List.filter_eq_nil.mpr (fun e he => by
      rw [(hrel e he).2.2.2.1]
      exact fun hh => Bool.noConfusion hh)
  unfold createGrid
  rw [hf]
  rfl

/-- The recursive positioning loop is a no-op when no entry carries a
cluster annotation, at any fuel. -/
theorem positionLoop_noclusters {cfg : Cfg} {st : St} (fuel : Nat)
    (h : ∀ e ∈ st.entries, e.cluster = none) :
    positionLoop cfg fuel st = okR st := by
  have hfind : st.entries.findIdx? (fun e => e.cluster.isSome && e.row.isNone) = none :=
    findIdx?_none_of_false _ _ _ (fun e he => by rw [h e he]; rfl)
  cases fuel with
  | zero => rw [positionLoop, hfind]
  | succ n => rw [positionLoop, hfind]

/-- The deviation pass over entries with empty `relativeRows`: it
succeeds and changes no id, span or row. -/
theorem deviationFold_char : ∀ (idxs : List Nat) (st : St),
    (∀ i ∈ idxs, i < st.entries.length) →
    (∀ e ∈ st.entries, e.relativeRows = []) →
    ∃ st', foldE (fun st i => do
        let e ← getEntry st i
        let rd ← foldE (fun (acc : List (String × Rel) × Option Int) (p : String × Rel) =>
            match st.entries.find? (fun t => t.id == p.1) with
            | none => Except.error Err.typeError
            | some target =>
              let actual : Option Int := match e.row, target.row with
                | some a, some b => some (a - b)
                | _, _ => none
              let dev2 : Option Int := match acc.2, actual with
                | some d, some a => some (d + (p.2.relative - a).natAbs)
                | _, _ => none
              Except.ok (acc.1 ++ [(p.1, { p.2 with actual := actual })], dev2))
          (([], some 0)) e.relativeRows
        pure (setEntry st i { e with relativeRows := rd.1, deviation := rd.2 }))
      st idxs = Except.ok st' ∧
      st'.entries.length = st.entries.length ∧
      (∀ e ∈ st'.entries, e.relativeRows = []) ∧
      ∀ j, (st'.entries.get? j).map (fun e => (e.id, e.start, e.stop, e.row)) =
        (st.entries.get? j).map (fun e => (e.id, e.start, e.stop, e.row)) := by
  intro idxs
  induction idxs with
  | nil =>
    intro st _ hrel
    exact ⟨st, rfl, rfl, hrel, fun _ => rfl⟩
  | cons i rest ih =>
    intro st hidx hrel
    have hlt : i < st.entries.length := hidx i (List.mem_cons_self i rest)
    cases hg : st.entries.get? i with
    | none =>
      rw [List.get?_eq_none] at hg
      omega
    | some e =>
      have hge : getEntry st i = Except.ok e := getEntry_ok_iff.mpr hg
      have herel : e.relativeRows = [] := hrel e (List.get?_mem hg)
      obtain ⟨st', hfold, hlen, hrel', hmap⟩ :=
        ih (setEntry st i { e with relativeRows := [], deviation := some (0 : Int) })
          (by
            intro k hk
            unfold setEntry
            dsimp only
            rw [List.length_set]
            exact hidx k (List.mem_cons_of_mem i hk))
          (by
            intro f hf
            unfold setEntry at hf
            dsimp only at hf
            obtain ⟨k, hk⟩ := List.get?_of_mem hf
            by_cases hki : k = i
            · subst hki
              rw [List.get?_set_eq_of_lt _ hlt] at hk
              injection hk with hk
              subst hk
              rfl
            · rw [List.get?_set_ne _ _ (fun hh => hki hh.symm)] at hk
              exact hrel f (List.get?_mem hk))
      refine ⟨st', ?_, ?_, hrel', ?_⟩
      · rw [foldE]
        simp only [hge, exceptBind_ok, herel, foldE_nil]
        exact hfold
      · rw [hlen]
        unfold setEntry
        dsimp only
        exact List.length_set st.entries i _
      · intro j
        rw [hmap j]
        unfold setEntry
        dsimp only
        by_cases hj : j = i
        · subst hj
          rw [List.get?_set_eq_of_lt _ hlt, hg]
          rfl
        · rw [List.get?_set_ne _ _ (fun hh => hj hh.symm)]

/-- Full layout of a relationship-free, year-sane entity model: it
terminates successfully at any fuel, every entity gets a row, spans and
ids are preserved, and same-row entities are separated by at least one
year-unit (`spansDisjoint`). -/
theorem layout_norel {cfg : Cfg} {fuel : Nat} {entries : List Entry}
    (hrel : relationFree entries) (hyears : yearsOk cfg entries) :
    ∃ st', layout cfg fuel entries = okR st' ∧
      st'.entries.length = entries.length ∧
      (∀ i e', st'.entries.get? i = some e' → ∃ e, entries.get? i = some e ∧
        e'.id = e.id ∧ e'.start = e.start ∧ e'.stop = e.stop ∧ e'.row.isSome = true) ∧
      (∀ i j a b, i ≠ j → st'.entries.get? i = some a → st'.entries.get? j = some b →
        a.row = b.row → spansDisjoint a b) := by
  have hsnap1 : (List.range entries.length).filter
      (fun i => (entries.get? i).elim false (fun e => e.cluster.isSome)) = [] :=
    List.filter_eq_nil.mpr (fun j _ => by
      cases hx : entries.get? j with
      | none => exact fun hh => Bool.noConfusion hh
      | some x =>
        rw [show ((some x).elim false (fun e => e.cluster.isSome)) = x.cluster.isSome
          from rfl, (hrel x (List.get?_mem hx)).2.2.2.2.1]
        exact fun hh => Bool.noConfusion hh)
  have hploop : positionLoop cfg fuel
      { entries := entries, grid := [newRow cfg], order := [] } = okR
      { entries := entries, grid := [newRow cfg], order := [] } :=
    positionLoop_noclusters fuel (fun e he => (hrel e he).2.2.2.2.1)
  have hadj : adjustPhase cfg { entries := entries, grid := [newRow cfg], order := [] } =
      Except.ok { entries := entries, grid := [newRow cfg], order := [] } := rfl
  have hsnapL : (List.range entries.length).filter
      (fun i => (entries.get? i).elim false (fun e => e.row.isNone)) =
      List.range entries.length :=
    List.filter_eq_self.mpr (fun j hj => by
      have hjl : j < entries.length := List.mem_range.mp hj
      cases hx : entries.get? j with
      | none =>
        rw [List.get?_eq_none] at hx
        omega
      | some x =>
        rw [show ((some x).elim false (fun e => e.row.isNone)) = x.row.isNone from rfl,
          (hrel x (List.get?_mem hx)).2.2.2.1]
        rfl)
  have hinv0 : PlacedInv cfg { entries := entries, grid := [newRow cfg], order := [] } := by
    refine ⟨?_, hyears, ?_, ?_⟩
    · intro r hr
      simp only [List.mem_singleton] at hr
      subst hr
      simp [newRow]
    · intro i e r hi hr
      rw [(hrel e (List.get?_mem hi)).2.2.2.1] at hr
      exact Option.noConfusion hr
    · intro i j a b ra rb hne hia hjb hra hrb hrarb
      rw [(hrel a (List.get?_mem hia)).2.2.2.1] at hra
      exact Option.noConfusion hra
  obtain ⟨st1, hfold, hinv1, hlen1, hunt, hass⟩ :=
    leftoverFold_char (List.range entries.length)
      { entries := entries, grid := [newRow cfg], order := [] } (List.nodup_range _)
      (fun i hi => by
        have hil : i < entries.length := List.mem_range.mp hi
        have hex : ∃ x, entries.get? i = some x := by
          cases hg : entries.get? i with
          | none =>
            rw [List.get?_eq_none] at hg
            omega
          | some x => exact ⟨x, rfl⟩
        obtain ⟨x, hx⟩ := hex
        exact ⟨x, hx, (hrel x (List.get?_mem hx)).2.2.2.1⟩)
      hinv0
  have hlen1' : st1.entries.length = entries.length := hlen1
  have hleft : leftoverPhase cfg { entries := entries, grid := [newRow cfg], order := [] } =
      Except.ok st1 := by
    unfold leftoverPhase
    dsimp only
    rw [hsnapL]
    exact hfold
  have hrel1 : ∀ f ∈ st1.entries, f.relativeRows = [] := by
    intro f hf
    obtain ⟨k, hk⟩ := List.get?_of_mem hf
    have hkl : k < entries.length := by
      have := lt_length_of_get?_eq_some hk
      omega
    obtain ⟨e0, r0, he0, he0'⟩ := hass k (List.mem_range.mpr hkl)
    rw [he0'] at hk
    injection hk with hk
    subst hk
    exact (hrel e0 (List.get?_mem he0)).2.2.2.2.2.1
  obtain ⟨st2, hdfold, hlen2, hrel2, hmap2⟩ :=
    deviationFold_char (List.range st1.entries.length) st1
      (fun i hi => List.mem_range.mp hi) hrel1
  have hdev : deviationPass st1 = Except.ok st2 := hdfold
  refine ⟨st2, ?_, ?_, ?_, ?_⟩
  · unfold layout
    simp only [readEntries_norel hrel, bindR_okR, createGrid_norel hrel, bindR_liftE_ok]
    unfold position
    dsimp only
    rw [hsnap1, foldE_nil]
    simp only [bindR_liftE_ok]
    rw [hploop, bindR_okR, hadj]
    simp only [bindR_liftE_ok]
    rw [hleft]
    simp only [bindR_liftE_ok]
    rw [hdev]
    rfl
  · have h1 : st2.entries.length = st1.entries.length := hlen2
    omega
  · intro i e' hie
    have hieq := hmap2 i
    rw [hie] at hieq
    cases hk : st1.entries.get? i with
    | none =>
      rw [hk] at hieq
      exact Option.noConfusion hieq
    | some e1 =>
      rw [hk] at hieq
      injection hieq with hieq
      have hid : e'.id = e1.id := congrArg (fun t => t.1) hieq
      have hstart : e'.start = e1.start := congrArg (fun t => t.2.1) hieq
      have hstop : e'.stop = e1.stop := congrArg (fun t => t.2.2.1) hieq
      have hrw : e'.row = e1.row := congrArg (fun t => t.2.2.2) hieq
      have hil : i < entries.length := by
        have := lt_length_of_get?_eq_some hk
        omega
      obtain ⟨e0, r0, he0, he0'⟩ := hass i (List.mem_range.mpr hil)
      rw [he0'] at hk
      injection hk with hk
      refine ⟨e0, he0, ?_, ?_, ?_, ?_⟩
      · rw [hid, ← hk]
      · rw [hstart, ← hk]
      · rw [hstop, ← hk]
      · rw [hrw, ← hk]
        rfl
  · intro i j a b hne hia hjb hab
    have hieq := hmap2 i
    have hjeq := hmap2 j
    rw [hia] at hieq
    rw [hjb] at hjeq
    cases hk : st1.entries.get? i with
    | none =>
      rw [hk] at hieq
      exact absurd hieq (by simp)
    | some a1 =>
      cases hl : st1.entries.get? j with
      | none =>
        rw [hl] at hjeq
        exact absurd hjeq (by simp)
      | some b1 =>
        rw [hk] at hieq
        rw [hl] at hjeq
        injection hieq with hieq
        injection hjeq with hjeq
        have hstarta : a.start = a1.start := congrArg (fun t => t.2.1) hieq
        have hstopa : a.stop = a1.stop := congrArg (fun t => t.2.2.1) hieq
        have hrowa : a.row = a1.row := congrArg (fun t => t.2.2.2) hieq
        have hstartb : b.start = b1.start := congrArg (fun t => t.2.1) hjeq
        have hstopb : b.stop = b1.stop := congrArg (fun t => t.2.2.1) hjeq
        have hrowb : b.row = b1.row := congrArg (fun t => t.2.2.2) hjeq
        have hil : i < entries.length := by
          have := lt_length_of_get?_eq_some hk
          omega
        have hjl : j < entries.length := by
          have := lt_length_of_get?_eq_some hl
          omega
        obtain ⟨ea, ra, hea, hea'⟩ := hass i (List.mem_range.mpr hil)
        obtain ⟨eb, rb, heb, heb'⟩ := hass j (List.mem_range.mpr hjl)
        rw [hea'] at hk
        rw [heb'] at hl
        injection hk with hk
        injection hl with hl
        have hra : a1.row = some ra := by rw [← hk]
        have hrb : b1.row = some rb := by rw [← hl]
        have hrarb : ra = rb := by
          have h1 : some ra = some rb := by
            rw [← hra, ← hrowa, hab, hrowb, hrb]
          injection h1
        obtain ⟨_, _, _, hpair1⟩ := hinv1
        have hk1 : st1.entries.get? i = some a1 := hea'.trans (congrArg some hk)
        have hl1 : st1.entries.get? j = some b1 := heb'.trans (congrArg some hl)
        have hdisj : spansDisjoint a1 b1 :=
          hpair1 i j a1 b1 ra rb hne hk1 hl1 hra hrb hrarb
        unfold spansDisjoint at hdisj ⊢
        rw [hstarta, hstopa, hstartb, hstopb]
        exact hdisj

/-- C1 counterexample: a full layout pass over the unrelated entities
`exA` (years 0-5) and `exB` (years 6-10) puts both on row 0, yet their
spans buffered by one year-unit on each side do intersect — the grid
buffer is shared between neighbours, not doubled. -/
theorem same_row_buffered_overlap_counterexample :
    (layout cfgW 10 [exA, exB]).map (Except.map (fun st => st.entries.map (fun e => e.row))) =
      some (Except.ok [some 0, some 0]) ∧
    ¬ specBufferedDisjoint exA exB := by
  constructor
  · rfl
  · unfold specBufferedDisjoint
    decide

/-- C1 (amended): after a full layout of a relationship-free, year-sane
entity model, every entity holds a final row, and any two distinct
entities on the same final row have ranges separated by at least one
year-unit: one of them starts strictly after the other ends
(`spansDisjoint`) — a single shared buffer unit between them, not a
one-unit buffer on each side. -/
theorem same_row_one_unit_separation (cfg : Cfg) (fuel : Nat) (entries : List Entry)
    (hrel : relationFree entries) (hyears : yearsOk cfg entries) :
    ∃ st', layout cfg fuel entries = okR st' ∧
      (∀ i e', st'.entries.get? i = some e' → e'.row.isSome = true) ∧
      (∀ i j a b, i ≠ j → st'.entries.get? i = some a → st'.entries.get? j = some b →
        a.row = b.row → spansDisjoint a b) := by
  obtain ⟨st', h1, _, h3, h4⟩ := layout_norel hrel hyears
  refine ⟨st', h1, ?_, h4⟩
  intro i e' hie
  obtain ⟨e, _, _, _, _, hs⟩ := h3 i e' hie
  exact hs

/-- Witness for the amended C1 theorem at the concrete two-entity
input. -/
theorem same_row_one_unit_separation_witness :
    relationFree [exA, exB] ∧ yearsOk cfgW [exA, exB] ∧
    (∃ st', layout cfgW 10 [exA, exB] = okR st' ∧
      (∀ i e', st'.entries.get? i = some e' → e'.row.isSome = true) ∧
      (∀ i j a b, i ≠ j → st'.entries.get? i = some a → st'.entries.get? j = some b →
        a.row = b.row → spansDisjoint a b)) :=
  ⟨by unfold relationFree; decide, by unfold yearsOk; decide,
    same_row_one_unit_separation cfgW 10 [exA, exB]
      (by unfold relationFree; decide) (by unfold yearsOk; decide)⟩

/-- C2 (amended): the layout pass terminates (with success) on every
relationship-free, year-sane entity model, at any fuel — termination
holds for inputs without the cluster-chasing recursion, while mutually
merging entities make `_findRelatedClusterSource` diverge (see the
mutual-merge counterexample). -/
theorem norel_layout_terminates (cfg : Cfg) (fuel : Nat) (entries : List Entry)
    (hrel : relationFree entries) (hyears : yearsOk cfg entries) :
    ∃ r, layout cfg fuel entries = okR r := by
  obtain ⟨st', h1, _⟩ := layout_norel hrel hyears
  exact ⟨st', h1⟩

/-- Witness for the amended C2 theorem at a concrete input and minimal
fuel. -/
theorem norel_layout_terminates_witness :
    relationFree [exA, exB] ∧ yearsOk cfgW [exA, exB] ∧
    (∃ r, layout cfgW 0 [exA, exB] = okR r) :=
  ⟨by unfold relationFree; decide, by unfold yearsOk; decide,
    norel_layout_terminates cfgW 0 [exA, exB]
      (by unfold relationFree; decide) (by unfold yearsOk; decide)⟩

theorem resLE_refl {α : Type} (a : Res α) : resLE a a := Or.inr rfl

theorem bindR_mono {α β : Type} {a a' : Res α} {k k' : α → Res β}
    (ha : resLE a a') (hk : ∀ x, resLE (k x) (k' x)) :
    resLE (bindR a k) (bindR a' k') := by
  rcases ha with ha | ha
  · left
    rw [ha]
    rfl
  · subst ha
    cases a with
    | none => left; rfl
    | some x =>
      cases x with
      | error e => right; rfl
      | ok v => exact hk v

theorem foldR_mono {γ σ : Type} {step step' : σ → γ → Res σ}
    (h : ∀ s x, resLE (step s x) (step' s x)) :
    ∀ (l : List γ) (s : σ), resLE (foldR step s l) (foldR step' s l) := by
  intro l
  induction l with
  | nil => intro s; exact Or.inr rfl
  | cons x xs ih =>
    intro s
    rw [foldR, foldR]
    exact bindR_mono (h s x) (fun s2 => ih s2)

/-- More fuel refines `_mergeBecomeEntries`. -/
theorem mergeBecomeEntries_mono : ∀ {f1 f2 : Nat}, f1 ≤ f2 →
    ∀ (e : Entry) (entries : List Entry),
    resLE (mergeBecomeEntries f1 e entries) (mergeBecomeEntries f2 e entries) := by
  intro f1
  induction f1 with
  | zero => intro f2 _ e entries; left; rfl
  | succ n ih =>
    intro f2 hf e entries
    cases f2 with
    | zero => omega
    | succ m =>
      simp only [mergeBecomeEntries]
      cases ht : entries.find? (fun x =>
          match x.ids, e.become with
          | some l, some b => l.contains b
          | some _, none => false
          | none, some b => x.id == b
          | none, none => false) with
      | none => exact Or.inr rfl
      | some t0 =>
        refine bindR_mono ?_ (fun t => resLE_refl _)
        by_cases hb : t0.become ≠ none
        · rw [if_pos hb, if_pos hb]
          exact ih (by omega) t0 entries
        · rw [if_neg hb, if_neg hb]
          exact resLE_refl _

/-- More fuel refines one become-collapse step. -/
theorem collapseStep_mono {f1 f2 : Nat} (hf : f1 ≤ f2)
    (entries : List Entry) (e : Entry) :
    resLE (collapseStep f1 entries e) (collapseStep f2 entries e) := by
  unfold collapseStep
  by_cases hc : entries.contains e
  · rw [if_pos hc, if_pos hc]
    exact bindR_mono (mergeBecomeEntries_mono hf e entries) (fun n => resLE_refl _)
  · rw [if_neg hc, if_neg hc]
    exact resLE_refl _

/-- More fuel refines the become-collapse loop. -/
theorem collapseBecome_mono {f1 f2 : Nat} (hf : f1 ≤ f2) (entries : List Entry) :
    resLE (collapseBecome f1 entries) (collapseBecome f2 entries) := by
  unfold collapseBecome
  exact foldR_mono (fun s x => collapseStep_mono hf s x) _ _

/-- More fuel refines `_readEntries`. -/
theorem readEntries_mono {f1 f2 : Nat} (hf : f1 ≤ f2) (entries : List Entry) :
    resLE (readEntries f1 entries) (readEntries f2 entries) := by
  unfold readEntries
  exact bindR_mono (collapseBecome_mono hf entries) (fun x => resLE_refl _)

/-- More fuel refines the cascading shift. -/
theorem shiftGridEntries_mono {cfg : Cfg} : ∀ {f1 f2 : Nat}, f1 ≤ f2 →
    ∀ (st : St) (row x1 x2 : Int),
    resLE (shiftGridEntries cfg f1 st row x1 x2) (shiftGridEntries cfg f2 st row x1 x2) := by
  intro f1
  induction f1 with
  | zero => intro f2 _ st row x1 x2; left; rfl
  | succ n ih =>
    intro f2 hf st row x1 x2
    cases f2 with
    | zero => omega
    | succ m =>
      simp only [shiftGridEntries]
      apply foldR_mono
      intro acc j
      cases acc with
      | mk moved st' =>
        dsimp only
        refine bindR_mono (resLE_refl _) ?_
        intro entry
        dsimp only
        refine bindR_mono (resLE_refl _) ?_
        intro free
        refine bindR_mono ?_ (fun res2 => resLE_refl _)
        cases free with
        | true =>
          rw [if_pos rfl, if_pos rfl]
          exact resLE_refl _
        | false =>
          rw [if_neg Bool.false_ne_true, if_neg Bool.false_ne_true]
          exact ih (by omega) _ _ _ _

/-- More fuel refines `_freePosition`. -/
theorem freePosition_mono {cfg : Cfg} {f1 f2 : Nat} (hf : f1 ≤ f2)
    (st : St) (row : Int) (i : Nat) :
    resLE (freePosition cfg f1 st row i) (freePosition cfg f2 st row i) := by
  unfold freePosition
  refine bindR_mono (resLE_refl _) ?_
  intro entry
  cases hb : (entry.row == some row) with
  | true =>
    rw [if_pos rfl, if_pos rfl]
    exact resLE_refl _
  | false =>
    rw [if_neg Bool.false_ne_true, if_neg Bool.false_ne_true]
    refine bindR_mono (resLE_refl _) ?_
    intro free
    cases free with
    | true =>
      rw [if_pos rfl, if_pos rfl]
      exact resLE_refl _
    | false =>
      rw [if_neg Bool.false_ne_true, if_neg Bool.false_ne_true]
      exact shiftGridEntries_mono hf _ _ _ _

/-- More fuel refines `_forceCluster`. -/
theorem forceCluster_mono {cfg : Cfg} {f1 f2 : Nat} (hf : f1 ≤ f2)
    (st : St) (i : Nat) (row : Option Int) :
    resLE (forceCluster cfg f1 st i row) (forceCluster cfg f2 st i row) := by
  unfold forceCluster
  refine bindR_mono (resLE_refl _) ?_
  intro entry
  by_cases hc : (row.isNone && !jsTruthy entry.row) = true
  · rw [if_pos hc, if_pos hc]
    exact resLE_refl _
  · rw [if_neg hc, if_neg hc]
    dsimp only
    refine bindR_mono (resLE_refl _) ?_
    intro relE
    dsimp only
    refine bindR_mono ?_ ?_
    · by_cases hj : (!jsTruthy entry.row) = true
      · rw [if_pos hj, if_pos hj]
        exact bindR_mono (freePosition_mono hf _ _ _) (fun mv => resLE_refl _)
      · rw [if_neg hj, if_neg hj]
        exact resLE_refl _
    · intro st1
      refine bindR_mono (resLE_refl _) ?_
      intro members
      refine bindR_mono (resLE_refl _) ?_
      intro before
      refine bindR_mono ?_ ?_
      · apply foldR_mono
        intro s j
        exact bindR_mono (resLE_refl _) (fun e =>
          bindR_mono (resLE_refl _) (fun rel =>
            bindR_mono (freePosition_mono hf _ _ _) (fun mv => resLE_refl _)))
      · intro st2
        refine bindR_mono (resLE_refl _) ?_
        intro after
        refine bindR_mono ?_ (fun st3 => resLE_refl _)
        apply foldR_mono
        intro s j
        exact bindR_mono (resLE_refl _) (fun e =>
          bindR_mono (resLE_refl _) (fun rel =>
            bindR_mono (freePosition_mono hf _ _ _) (fun mv => resLE_refl _)))

/-- More fuel refines the root chase `_findRelatedClusterSource`. -/
theorem findRelatedClusterSource_mono {st : St} : ∀ {f1 f2 : Nat}, f1 ≤ f2 →
    ∀ (i : Nat),
    resLE (findRelatedClusterSource st f1 i) (findRelatedClusterSource st f2 i) := by
  intro f1
  induction f1 with
  | zero => intro f2 _ i; left; rfl
  | succ n ih =>
    intro f2 hf i
    cases f2 with
    | zero => omega
    | succ m =>
      simp only [findRelatedClusterSource]
      refine bindR_mono (resLE_refl _) ?_
      intro entry
      refine bindR_mono ?_ (fun acc => resLE_refl _)
      apply foldR_mono
      intro acc j
      by_cases ha : acc.2 = true
      · rw [if_pos ha, if_pos ha]
        exact resLE_refl _
      · rw [if_neg ha, if_neg ha]
        refine bindR_mono (resLE_refl _) ?_
        intro step
        by_cases hb : (some step.id == entry.merge && jsTruthyS entry.split) = true
        · rw [if_pos hb, if_pos hb]
          exact resLE_refl _
        · rw [if_neg hb, if_neg hb]
          exact bindR_mono (ih (by omega) j) (fun g => resLE_refl _)

/-- More fuel refines `_positionCluster`. -/
theorem positionCluster_mono {cfg : Cfg} : ∀ {f1 f2 : Nat}, f1 ≤ f2 →
    ∀ (st : St) (i : Nat),
    resLE (positionCluster cfg f1 st i) (positionCluster cfg f2 st i) := by
  intro f1
  induction f1 with
  | zero => intro f2 _ st i; left; rfl
  | succ n ih =>
    intro f2 hf st i
    cases f2 with
    | zero => omega
    | succ m =>
      simp only [positionCluster]
      refine bindR_mono (resLE_refl _) ?_
      intro entry
      dsimp only
      refine bindR_mono (findRelatedClusterSource_mono (by omega) i) ?_
      intro root
      by_cases hg : entry.grid.isNone = true
      · rw [if_pos hg, if_pos hg]
        exact resLE_refl _
      · rw [if_neg hg, if_neg hg]
        refine bindR_mono (resLE_refl _) ?_
        intro rs
        cases rs with
        | mk space st1 =>
          dsimp only
          refine bindR_mono ?_ ?_
          · by_cases hc : (!space.fit && jsTruthy entry.row) = true
            · rw [if_pos hc, if_pos hc]
              refine bindR_mono (resLE_refl _) ?_
              intro entryCur
              dsimp only
              refine bindR_mono (resLE_refl _) ?_
              intro rs2
              exact forceCluster_mono (by omega) _ _ _
            · rw [if_neg hc, if_neg hc]
              exact resLE_refl _
          · intro rs3
            cases rs3 with
            | mk space3 st3 =>
              dsimp only
              refine bindR_mono (resLE_refl _) ?_
              intro rs4
              cases rs4 with
              | mk space4 st4 =>
                dsimp only
                refine bindR_mono (resLE_refl _) ?_
                intro st5
                refine bindR_mono (resLE_refl _) ?_
                intro members2
                apply foldR_mono
                intro s c
                exact ih (by omega) s c

/-- More fuel refines the positioning loop. -/
theorem positionLoop_mono {cfg : Cfg} : ∀ {f1 f2 : Nat}, f1 ≤ f2 → ∀ (st : St),
    resLE (positionLoop cfg f1 st) (positionLoop cfg f2 st) := by
  intro f1
  induction f1 with
  | zero =>
    intro f2 _ st
    cases hs : st.entries.findIdx? (fun e => e.cluster.isSome && e.row.isNone) with
    | none =>
      right
      cases f2 with
      | zero => rfl
      | succ m => simp only [positionLoop, hs]
    | some j =>
      left
      simp only [positionLoop, hs]
  | succ n ih =>
    intro f2 hf st
    cases f2 with
    | zero => omega
    | succ m =>
      simp only [positionLoop]
      cases hs : st.entries.findIdx? (fun e => e.cluster.isSome && e.row.isNone) with
      | none => exact Or.inr rfl
      | some i =>
        exact bindR_mono (findRelatedClusterSource_mono (by omega) i)
          (fun root => bindR_mono (positionCluster_mono (by omega) st root)
            (fun st2 => ih (by omega) st2))

/-- More fuel refines `_position`. -/
theorem position_mono {cfg : Cfg} {f1 f2 : Nat} (hf : f1 ≤ f2) (st : St) :
    resLE (position cfg f1 st) (position cfg f2 st) := by
  unfold position
  dsimp only
  exact bindR_mono (resLE_refl _)
    (fun st1 => bindR_mono (positionLoop_mono hf st1) (fun st2 => resLE_refl _))

/-- More fuel refines the whole layout pipeline. -/
theorem layout_mono {cfg : Cfg} {f1 f2 : Nat} (hf : f1 ≤ f2) (entries : List Entry) :
    resLE (layout cfg f1 entries) (layout cfg f2 entries) := by
  unfold layout
  exact bindR_mono (readEntries_mono hf entries)
    (fun es => bindR_mono (resLE_refl _) (fun grid => position_mono hf _))

/-- C6: the layout pipeline is deterministic.  The fuel parameter is an
artifact of embedding the source's unbounded recursion: whenever two
runs of the full pipeline on the same untouched input both complete
(with a success or with a fatal error), they produce the identical
outcome — in particular identical row assignments. -/
theorem layout_deterministic (cfg : Cfg) (entries : List Entry) (f1 f2 : Nat)
    (r1 r2 : Except Err St) (h1 : layout cfg f1 entries = some r1)
    (h2 : layout cfg f2 entries = some r2) : r1 = r2 := by
  rcases Nat.le_total f1 f2 with h | h
  · rcases layout_mono h entries with hd | he
    · rw [h1] at hd
      exact Option.noConfusion hd
    · rw [h1, h2] at he
      injection he
  · rcases layout_mono h entries with hd | he
    · rw [h2] at hd
      exact Option.noConfusion hd
    · rw [h2, h1] at he
      injection he with he
      exact he.symm

/-- Witness for the determinism theorem: two runs at different fuels on
a concrete input yield the same completed outcome. -/
theorem layout_deterministic_witness :
    layout cfgW 0 [] = some (Except.ok { entries := [], grid := [newRow cfgW], order := [] }) ∧
    layout cfgW 5 [] = some (Except.ok { entries := [], grid := [newRow cfgW], order := [] }) ∧
    (Except.ok { entries := [], grid := [newRow cfgW], order := [] } : Except Err St) =
      Except.ok { entries := [], grid := [newRow cfgW], order := [] } :=
  ⟨rfl, rfl, layout_deterministic cfgW [] 0 5 _ _ rfl rfl⟩

/-- Two entries that each sit in the other's cluster and never trip the
break condition drive `_findRelatedClusterSource` into unbounded mutual
recursion: no amount of fuel completes the chase. -/
theorem frcs_mutual_diverges (st : St) (i j : Nat) (eI eJ : Entry)
    (hgi : getEntry st i = Except.ok eI) (hgj : getEntry st j = Except.ok eJ)
    (hsi : frcsSteps st i eI.id = [j]) (hsj : frcsSteps st j eJ.id = [i])
    (hbi : (some eJ.id == eI.merge && jsTruthyS eI.split) = false)
    (hbj : (some eI.id == eJ.merge && jsTruthyS eJ.split) = false) :
    ∀ fuel, findRelatedClusterSource st fuel i = divR ∧
      findRelatedClusterSource st fuel j = divR := by
  intro fuel
  induction fuel with
  | zero => exact ⟨rfl, rfl⟩
  | succ f ih =>
    constructor
    · rw [findRelatedClusterSource, hgi]
      simp only [bindR_liftE_ok, hsi, foldR]
      rw [hgj]
      simp only [bindR_liftE_ok]
      rw [ih.2]
      simp [hbi, bindR, divR]
    · rw [findRelatedClusterSource, hgj]
      simp only [bindR_liftE_ok, hsj, foldR]
      rw [hgi]
      simp only [bindR_liftE_ok]
      rw [ih.1]
      simp [hbj, bindR, divR]

theorem mutLoop_diverges : ∀ fuel, positionLoop cfgW fuel mutSt = divR := by
  have hdiv := frcs_mutual_diverges mutSt 0 1 mutE0 mutE1 rfl rfl (by decide) (by decide)
    (by decide) (by decide)
  intro fuel
  cases fuel with
  | zero => rfl
  | succ f =>
    have h1 : positionLoop cfgW (f + 1) mutSt =
        bindR (findRelatedClusterSource mutSt f 0)
          (fun root => bindR (positionCluster cfgW f mutSt root)
            (fun st => positionLoop cfgW f st)) := rfl
    rw [h1, (hdiv f).1]
    rfl

/-- C2 counterexample: the layout computation does NOT terminate on
every input — on `[mutA, mutB]` (two entities merging into each other)
the Phase-2 loop calls `_findRelatedClusterSource`, which recurses
between the two cluster-linked entities without any visited guard, so
the whole layout diverges at every fuel. -/
theorem mutual_merge_layout_diverges : mutLayoutDiverges := by
  intro fuel
  have hread : layout cfgW fuel [mutA, mutB] =
      bindR (positionLoop cfgW fuel mutSt)
        (fun st => bindR (liftE (adjustPhase cfgW st)) (fun st =>
          bindR (liftE (leftoverPhase cfgW st)) (fun st => liftE (deviationPass st)))) := rfl
  rw [hread, mutLoop_diverges fuel]
  rfl

end ILA
